import Mathlib

/-!
Shallow embedding of the shape-shifter editing core: the document state
(layers + timeline), the reducer over its action vocabulary, the gap-finding
heuristic used by ADD_BLOCK, and the path-compatibility reconciliation run on
UPDATE_PATH_BLOCK.  Translated from `src/app/store/aia/reducer.ts`; external
collaborators (geometry library, layer-tree utilities, model utilities) are
modelled from the specification of their interfaces.

JavaScript `Set<string>` values are modelled as insertion-ordered duplicate-free
lists of strings; `lodash.isEqual` on two sets compares size and membership.
Numeric times and durations are modelled as `Int`.  JavaScript runtime failures
(indexing a missing entity and then dereferencing `undefined`) are modelled by
returning `none`.
-/

namespace ShapeShifter

/-! ## JavaScript `Set<string>` operations -/

/-- `Set.add`: appends the element if it is not already present. -/
def jsSetAdd (s : List String) (x : String) : List String :=
  if x ∈ s then s else s ++ [x]

/-- `Set.delete`: removes the element wherever it occurs. -/
def jsSetDelete (s : List String) (x : String) : List String :=
  s.filter (fun y => y ≠ x)

/-- `lodash.isEqual` on two `Set<string>` values: equal size and every member of
one set occurs in the other. -/
def jsSetEq (a b : List String) : Bool :=
  (a.length == b.length) && a.all (fun x => b.contains x) && b.all (fun x => a.contains x)

/-- `Set.has`. -/
def jsSetHas (s : List String) (x : String) : Bool :=
  s.contains x

/-! ## Geometry collaborator: paths, subpaths, commands

Modelled from the spec: the geometry collaborator exposes an immutable `Path`
as an ordered sequence of subpaths, each an ordered sequence of draw commands;
a command carries an abstract command-type tag, and a conversion (command-type
promotion) is recorded so that it can later be reverted (`unconvert`).  A
collapsing subpath is a degenerate single-point subpath placed at a given
point, used purely to pad subpath counts. -/

structure Point where
  x : Int
  y : Int
deriving DecidableEq, Repr

/-- A draw command: `ctype` is its current (abstract) command-type tag and
`orig` records the original tag when a command-type promotion has been applied
(`none` means the command is unconverted). -/
structure Cmd where
  ctype : Nat
  orig : Option Nat
deriving DecidableEq, Repr

structure SubPath where
  isCollapsing : Bool
  pole : Point
  commands : List Cmd
deriving DecidableEq, Repr

structure Path where
  subPaths : List SubPath
deriving DecidableEq, Repr

/-- Revert a command-type promotion on one command. -/
def Cmd.unconvert (c : Cmd) : Cmd :=
  match c.orig with
  | some t => { ctype := t, orig := none }
  | none => c

/-- Revert all command-type promotions on one subpath. -/
def SubPath.unconvert (s : SubPath) : SubPath :=
  { s with commands := s.commands.map Cmd.unconvert }

/-- `PathMutator.unconvertSubPath(i)`. -/
def Path.unconvertSubPath (p : Path) (i : Nat) : Path :=
  match p.subPaths[i]? with
  | some s => { subPaths := p.subPaths.set i s.unconvert }
  | none => p

/-- `PathMutator.deleteCollapsingSubPaths()`. -/
def Path.deleteCollapsingSubPaths (p : Path) : Path :=
  { subPaths := p.subPaths.filter (fun s => !s.isCollapsing) }

/-- The default command used inside a synthetic collapsing subpath. -/
def collapsingCmd : Cmd :=
  { ctype := 1, orig := none }

/-- `PathMutator.addCollapsingSubPath(point, numCommands)`: appends one
synthetic collapsing subpath with the given command count at the given point. -/
def Path.addCollapsingSubPath (p : Path) (pt : Point) (numCommands : Nat) : Path :=
  { subPaths :=
      p.subPaths ++ [{ isCollapsing := true, pole := pt,
                       commands := List.replicate numCommands collapsingCmd }] }

/-- `Path.getPoleOfInaccessibility(i)`: the most-interior point of subpath `i`.
Modelled as a stored attribute of the subpath. -/
def Path.getPoleOfInaccessibility (p : Path) (i : Nat) : Point :=
  match p.subPaths[i]? with
  | some s => s.pole
  | none => { x := 0, y := 0 }

/-- `path.getSubPaths()[i].getCommands().length` (0 when out of range). -/
def Path.numCmds (p : Path) (i : Nat) : Nat :=
  match p.subPaths[i]? with
  | some s => s.commands.length
  | none => 0

/-- Reconcile the types of one command pair: when the tags differ, the command
with the smaller tag is promoted to the larger tag and the promotion is
recorded in `orig`. -/
def autoConvertCmd (a b : Cmd) : Cmd × Cmd :=
  if a.ctype = b.ctype then (a, b)
  else if a.ctype < b.ctype then
    ({ ctype := b.ctype, orig := some (match a.orig with | some t => t | none => a.ctype) }, b)
  else
    (a, { ctype := a.ctype, orig := some (match b.orig with | some t => t | none => b.ctype) })

/-- Reconcile the command types of two subpaths position-by-position. -/
def SubPath.autoConvertWith (s t : SubPath) : SubPath × SubPath :=
  let pairs := (s.commands.zip t.commands).map (fun pr => autoConvertCmd pr.1 pr.2)
  ({ s with commands := pairs.map Prod.fst },
   { t with commands := pairs.map Prod.snd })

/-- Modelled from the spec: `AutoAwesome.autoConvert(subIdx, from, to)` makes
the command types of the two paths compatible position-by-position at subpath
`subIdx` without changing point counts; both paths are returned. -/
def AutoAwesome.autoConvert (subIdx : Nat) (pFrom pTo : Path) : Path × Path :=
  match pFrom.subPaths[subIdx]?, pTo.subPaths[subIdx]? with
  | some s, some t =>
    let st := SubPath.autoConvertWith s t
    ({ subPaths := pFrom.subPaths.set subIdx st.1 },
     { subPaths := pTo.subPaths.set subIdx st.2 })
  | _, _ => (pFrom, pTo)

/-! ## Layer trees

Modelled from the spec: a `VectorLayer`/`Layer` is a strict tree of nodes, each
with an id and a mapping from property name to an animatable-property
descriptor; `VectorLayer` is the root variant (`isVectorLayer`). -/

inductive PropKind where
  | pathProp
  | colorProp
  | numberProp
deriving DecidableEq, Repr

inductive Layer where
  | node (id : String) (isVectorLayer : Bool)
         (animatableProperties : List (String × PropKind))
         (children : List Layer)

def Layer.id : Layer → String
  | .node i _ _ _ => i

def Layer.isVectorLayer : Layer → Bool
  | .node _ v _ _ => v

def Layer.animatableProperties : Layer → List (String × PropKind)
  | .node _ _ ps _ => ps

def Layer.children : Layer → List Layer
  | .node _ _ _ cs => cs

mutual

/-- `layer.walk`: the ids of every node of the subtree, in depth-first order. -/
def Layer.walkIds : Layer → List String
  | .node i _ _ cs => i :: walkIdsList cs

def walkIdsList : List Layer → List String
  | [] => []
  | l :: ls => Layer.walkIds l ++ walkIdsList ls

end

mutual

/-- Does the tree contain a node with the given id? -/
def Layer.containsId : Layer → String → Bool
  | .node i _ _ cs, target => i == target || containsIdList cs target

def containsIdList : List Layer → String → Bool
  | [], _ => false
  | l :: ls, target => Layer.containsId l target || containsIdList ls target

end

mutual

/-- `vl.findLayerById(id)` followed by `layer.walk`: the subtree ids of the
first node with the given id, when present. -/
def Layer.subtreeIds : Layer → String → Option (List String)
  | .node i v ps cs, target =>
    if i = target then some (Layer.walkIds (.node i v ps cs))
    else subtreeIdsList cs target

def subtreeIdsList : List Layer → String → Option (List String)
  | [], _ => none
  | l :: ls, target =>
    match Layer.subtreeIds l target with
    | some ids => some ids
    | none => subtreeIdsList ls target

end

mutual

/-- Modelled from the spec: `LayerUtil.removeLayerFromTree(root, id)` removes
the node with the given id from within the tree. -/
def removeLayerFromTree : Layer → String → Layer
  | .node i v ps cs, target => .node i v ps (removeLayerFromTreeList cs target)

def removeLayerFromTreeList : List Layer → String → List Layer
  | [], _ => []
  | c :: cs, target =>
    if c.id = target then removeLayerFromTreeList cs target
    else removeLayerFromTree c target :: removeLayerFromTreeList cs target

end

mutual

/-- Modelled from the spec: `LayerUtil.replaceLayerInTree(root, node)`
substitutes the node whose id matches the replacement's id. -/
def replaceLayerInTree : Layer → Layer → Layer
  | .node i v ps cs, repl =>
    if repl.id = i then repl else .node i v ps (replaceLayerInTreeList cs repl)

def replaceLayerInTreeList : List Layer → Layer → List Layer
  | [], _ => []
  | c :: cs, repl => replaceLayerInTree c repl :: replaceLayerInTreeList cs repl

end

/-- Modelled from the spec: `LayerUtil.findParentVectorLayer(vls, id)` returns
the first vector layer whose tree contains the given id. -/
def findParentVectorLayer (vls : List Layer) (layerId : String) : Option Layer :=
  vls.find? (fun vl => Layer.containsId vl layerId)

/-! ## Timeline entities -/

/-- Variant-typed `fromValue`/`toValue` payload of an `AnimationBlock`.  A path
endpoint may be absent (JavaScript `undefined`), which the reducer's update
logic checks for. -/
inductive BlockData where
  | pathBlock (fromValue toValue : Option Path)
  | colorBlock (fromValue toValue : String)
  | numberBlock (fromValue toValue : Int)
deriving DecidableEq, Repr

structure AnimationBlock where
  id : String
  layerId : String
  animationId : String
  propertyName : String
  startTime : Int
  endTime : Int
  data : BlockData
deriving DecidableEq, Repr

structure Animation where
  id : String
  duration : Int
  blocks : List AnimationBlock
deriving DecidableEq, Repr

instance : Inhabited Animation := ⟨{ id := "", duration := 0, blocks := [] }⟩

instance : Inhabited Layer := ⟨.node "" false [] []⟩

/-- Untyped value carried by the ADD_BLOCK payload; the constructed block's
variant is chosen from the layer's property descriptor. -/
inductive RawValue where
  | pathValue (p : Option Path)
  | colorValue (c : String)
  | numberValue (n : Int)
deriving Repr

def RawValue.asPath : RawValue → Option Path
  | .pathValue p => p
  | _ => none

def RawValue.asColor : RawValue → String
  | .colorValue c => c
  | _ => ""

def RawValue.asNumber : RawValue → Int
  | .numberValue n => n
  | _ => 0

/-! ## Document state -/

structure LayersState where
  vectorLayers : List Layer
  activeVectorLayerId : String
  selectedLayerIds : List String
  collapsedLayerIds : List String
  hiddenLayerIds : List String

structure TimelineState where
  animations : List Animation
  selectedAnimationIds : List String
  activeAnimationId : String
  selectedBlockIds : List String

structure State where
  layers : LayersState
  timeline : TimelineState

/-- Modelled from the spec: the `Animation` factory creates an empty animation
with a fresh unique id; the id is modelled as an explicit constant since no
claim depends on its value. -/
def defaultAnimation (id : String) : Animation :=
  { id := id, duration := 300, blocks := [] }

/-- Modelled from the spec: the `VectorLayer` factory creates an empty root
layer with a fresh unique id. -/
def defaultVectorLayer (id : String) : Layer :=
  .node id true [] []

def initialVectorLayerId : String := "vector-layer-initial"

def initialAnimationId : String := "animation-initial"

/-- `buildInitialState()`: one empty vector layer, one empty animation, all
selection sets empty, both fresh entities active. -/
def buildInitialState : State :=
  { layers :=
      { vectorLayers := [defaultVectorLayer initialVectorLayerId]
        activeVectorLayerId := initialVectorLayerId
        selectedLayerIds := []
        collapsedLayerIds := []
        hiddenLayerIds := [] }
    timeline :=
      { animations := [defaultAnimation initialAnimationId]
        selectedAnimationIds := []
        activeAnimationId := initialAnimationId
        selectedBlockIds := [] } }

def initialState : State := buildInitialState

/-! ## Canvas source and actions -/

inductive CanvasType where
  | Start
  | Preview
  | End
deriving DecidableEq, Repr

/-- The reducer's action vocabulary.  The ADD_BLOCK payload additionally
carries the id the `AnimationBlock` constructor will freshly generate (a UUID
in the implementation), modelled as an explicit parameter. -/
inductive Action where
  | newWorkspace
  | addAnimations (animations : List Animation)
  | selectAnimation (animationId : String) (clearExisting : Bool)
  | activateAnimation (animationId : String)
  | replaceAnimations (animations : List Animation)
  | addBlock (layer : Layer) (propertyName : String)
             (fromValue toValue : RawValue) (newBlockId : String)
  | selectBlock (blockId : String) (clearExisting : Bool)
  | replaceBlocks (blocks : List AnimationBlock)
  | updatePathBlock (blockId : String) (source : CanvasType) (path : Path)
  | addLayers (layers : List Layer)
  | selectLayer (layerId : String) (shouldToggle : Bool) (clearExisting : Bool)
  | clearLayerSelections
  | toggleLayerExpansion (layerId : String) (recursive : Bool)
  | toggleLayerVisibility (layerId : String)
  | replaceLayer (layer : Layer)
  | deleteSelectedModels

/-! ## Selection coordinator -/

/-- `selectAnimationId(state, animationId, clearExisting)`.  The source is
translated verbatim, including its reading of `timeline.selectedBlockIds` into
the variable named `oldSelectedAnimationIds`. -/
def selectAnimationId (state : State) (animationId : String) (clearExisting : Bool) : State :=
  let layers := state.layers
  let timeline := state.timeline
  let oldSelectedAnimationIds := timeline.selectedBlockIds
  let newSelectedAnimationIds :=
    jsSetAdd (if clearExisting then [] else oldSelectedAnimationIds) animationId
  if jsSetEq oldSelectedAnimationIds newSelectedAnimationIds then state
  else
    let selectedBlockIds :=
      if timeline.selectedBlockIds.length ≠ 0 then [] else timeline.selectedBlockIds
    let selectedLayerIds :=
      if layers.selectedLayerIds.length ≠ 0 then [] else layers.selectedLayerIds
    { state with
      layers := { layers with selectedLayerIds := selectedLayerIds }
      timeline := { timeline with
                      selectedAnimationIds := newSelectedAnimationIds
                      selectedBlockIds := selectedBlockIds } }

/-- True exactly when `selectAnimationId` takes its early-return branch and
hands back the input state object itself (reference equality). -/
def selectAnimationIdNoop (state : State) (animationId : String) (clearExisting : Bool) : Bool :=
  let oldSelectedAnimationIds := state.timeline.selectedBlockIds
  let newSelectedAnimationIds :=
    jsSetAdd (if clearExisting then [] else oldSelectedAnimationIds) animationId
  jsSetEq oldSelectedAnimationIds newSelectedAnimationIds

/-- `selectBlockId(state, blockId, clearExisting)`. -/
def selectBlockId (state : State) (blockId : String) (clearExisting : Bool) : State :=
  let layers := state.layers
  let timeline := state.timeline
  let oldSelectedBlockIds := timeline.selectedBlockIds
  let newSelectedBlockIds :=
    jsSetAdd (if clearExisting then [] else oldSelectedBlockIds) blockId
  if jsSetEq oldSelectedBlockIds newSelectedBlockIds then state
  else
    let selectedAnimationIds :=
      if timeline.selectedAnimationIds.length ≠ 0 then [] else timeline.selectedAnimationIds
    let selectedLayerIds :=
      if layers.selectedLayerIds.length ≠ 0 then [] else layers.selectedLayerIds
    { state with
      layers := { layers with selectedLayerIds := selectedLayerIds }
      timeline := { timeline with
                      selectedBlockIds := newSelectedBlockIds
                      selectedAnimationIds := selectedAnimationIds } }

/-- True exactly when `selectBlockId` takes its early-return branch. -/
def selectBlockIdNoop (state : State) (blockId : String) (clearExisting : Bool) : Bool :=
  let oldSelectedBlockIds := state.timeline.selectedBlockIds
  let newSelectedBlockIds :=
    jsSetAdd (if clearExisting then [] else oldSelectedBlockIds) blockId
  jsSetEq oldSelectedBlockIds newSelectedBlockIds

/-- `selectLayerId(state, layerId, shouldToggle, clearExisting)`; `none` models
the JavaScript crash at `parentVl.id` when no vector layer owns the id. -/
def selectLayerId (state : State) (layerId : String)
    (shouldToggle : Bool) (clearExisting : Bool) : Option State :=
  let layers := state.layers
  let selected0 := layers.selectedLayerIds
  let selected1 := if clearExisting then selected0.filter (fun i => i = layerId) else selected0
  match findParentVectorLayer layers.vectorLayers layerId with
  | none => none
  | some parentVl =>
    let eligible := clearExisting || layers.activeVectorLayerId == parentVl.id
    let activeVectorLayerId := if eligible then parentVl.id else layers.activeVectorLayerId
    let selected2 :=
      if eligible then
        if shouldToggle && jsSetHas selected1 layerId then jsSetDelete selected1 layerId
        else jsSetAdd selected1 layerId
      else selected1
    let timeline := state.timeline
    let selectedAnimationIds :=
      if timeline.selectedAnimationIds.length ≠ 0 then [] else timeline.selectedAnimationIds
    let selectedBlockIds :=
      if timeline.selectedBlockIds.length ≠ 0 then [] else timeline.selectedBlockIds
    some { state with
           layers := { layers with
                         selectedLayerIds := selected2
                         activeVectorLayerId := activeVectorLayerId }
           timeline := { timeline with
                           selectedAnimationIds := selectedAnimationIds
                           selectedBlockIds := selectedBlockIds } }

/-! ## Deletion helpers -/

/-- Modelled from the spec: the fresh id the `Animation` factory would draw
when deletion empties the pool. -/
def freshAnimationId : String := "animation-fresh"

/-- Modelled from the spec: the fresh id the `VectorLayer` factory would draw
when deletion empties the pool. -/
def freshVectorLayerId : String := "vector-layer-fresh"

/-- `deleteSelectedAnimations(state)`. -/
def deleteSelectedAnimations (state : State) : State :=
  let timeline := state.timeline
  let selectedAnimationIds := timeline.selectedAnimationIds
  if selectedAnimationIds.length = 0 then state
  else
    let animations0 :=
      timeline.animations.filter (fun animation => !jsSetHas selectedAnimationIds animation.id)
    let animations :=
      if animations0.length = 0 then animations0 ++ [defaultAnimation freshAnimationId]
      else animations0
    let activeAnimationId :=
      if jsSetHas selectedAnimationIds timeline.activeAnimationId then
        (animations.headI).id
      else timeline.activeAnimationId
    { state with
      timeline := { timeline with
                      animations := animations
                      activeAnimationId := activeAnimationId
                      selectedAnimationIds := [] } }

/-- `deleteSelectedBlocks(state)`. -/
def deleteSelectedBlocks (state : State) : State :=
  let timeline := state.timeline
  let selectedBlockIds := timeline.selectedBlockIds
  if selectedBlockIds.length = 0 then state
  else
    let animations := timeline.animations.map (fun animation =>
      let newBlocks := animation.blocks.filter (fun b => !jsSetHas selectedBlockIds b.id)
      if animation.blocks.length == newBlocks.length then animation
      else { animation with blocks := newBlocks })
    { state with
      timeline := { timeline with
                      animations := animations
                      selectedBlockIds := [] } }

/-- One iteration of the `selectedLayerIds.forEach` loop of
`deleteSelectedLayers`: remove the layer with the given id from the evolving
vector-layer pool and from the collapsed/hidden sets. -/
def deleteLayerStep (acc : List Layer × List String × List String) (layerId : String) :
    List Layer × List String × List String :=
  let vls := acc.1
  let collapsed := acc.2.1
  let hidden := acc.2.2
  match findParentVectorLayer vls layerId with
  | none => acc
  | some parentVl =>
    match vls.findIdx? (fun vl => vl.id = parentVl.id) with
    | none => acc
    | some vlIndex =>
      let vls2 :=
        if parentVl.id = layerId then vls.eraseIdx vlIndex
        else vls.set vlIndex (removeLayerFromTree parentVl layerId)
      (vls2, jsSetDelete collapsed layerId, jsSetDelete hidden layerId)

/-- `deleteSelectedLayers(state)`.  JavaScript `Set` iteration follows
insertion order, which the list model preserves. -/
def deleteSelectedLayers (state : State) : State :=
  let layers := state.layers
  let selectedLayerIds := layers.selectedLayerIds
  if selectedLayerIds.length = 0 then state
  else
    let acc := selectedLayerIds.foldl deleteLayerStep
      (layers.vectorLayers, layers.collapsedLayerIds, layers.hiddenLayerIds)
    let vectorLayers0 := acc.1
    let collapsedLayerIds :=
      if acc.2.1.length = layers.collapsedLayerIds.length then layers.collapsedLayerIds
      else acc.2.1
    let hiddenLayerIds :=
      if acc.2.2.length = layers.hiddenLayerIds.length then layers.hiddenLayerIds
      else acc.2.2
    let vectorLayers :=
      if vectorLayers0.length = 0 then vectorLayers0 ++ [defaultVectorLayer freshVectorLayerId]
      else vectorLayers0
    let activeVectorLayerId :=
      if (vectorLayers.find? (fun vl => vl.id = layers.activeVectorLayerId)).isNone then
        (vectorLayers.headI).id
      else layers.activeVectorLayerId
    { state with
      layers := { layers with
                    vectorLayers := vectorLayers
                    selectedLayerIds := []
                    collapsedLayerIds := collapsedLayerIds
                    hiddenLayerIds := hiddenLayerIds
                    activeVectorLayerId := activeVectorLayerId } }

/-! ## Gap finder -/

/-- Modelled from the spec: `ModelUtil.getOrderedBlocksByPropertyByLayer`
groups an animation's blocks by layer and property in `startTime` order; this
is the `(blocksByLayerId[layer.id] || {})[propertyName] || []` lookup. -/
def insertByStartTime (b : AnimationBlock) : List AnimationBlock → List AnimationBlock
  | [] => [b]
  | c :: cs => if b.startTime ≤ c.startTime then b :: c :: cs else c :: insertByStartTime b cs

def sortByStartTime : List AnimationBlock → List AnimationBlock
  | [] => []
  | b :: bs => insertByStartTime b (sortByStartTime bs)

def orderedBlocks (animation : Animation) (layerId propertyName : String) :
    List AnimationBlock :=
  sortByStartTime (animation.blocks.filter
    (fun b => b.layerId == layerId && b.propertyName == propertyName))

/-- A candidate gap `[start, stop)` on the timeline (the source names the upper
bound `end`). -/
structure Gap where
  start : Int
  stop : Int
deriving DecidableEq, Repr

/-- The candidate gaps: `[0, first.startTime)`, each `[prev.endTime,
next.startTime)`, and `[last.endTime, duration)` (just `[0, duration)` when the
block list is empty). -/
def gapsBetween (prevEnd : Int) (blocks : List AnimationBlock) (duration : Int) : List Gap :=
  match blocks with
  | [] => [{ start := prevEnd, stop := duration }]
  | b :: bs => { start := prevEnd, stop := b.startTime } :: gapsBetween b.endTime bs duration

/-- `dist = min(|gap.end - activeTime|, |gap.start - activeTime|)`. -/
def gapDist (g : Gap) (activeTime : Int) : Nat :=
  min (g.stop - activeTime).natAbs (g.start - activeTime).natAbs

/-- Stable sort of the gaps by distance (ties keep left-to-right order). -/
def insertGapByDist (activeTime : Int) (g : Gap) : List Gap → List Gap
  | [] => [g]
  | h :: t =>
    if gapDist g activeTime ≤ gapDist h activeTime then g :: h :: t
    else h :: insertGapByDist activeTime g t

def sortGapsByDist (activeTime : Int) : List Gap → List Gap
  | [] => []
  | g :: gs => insertGapByDist activeTime g (sortGapsByDist activeTime gs)

/-- The gap-finding heuristic of the ADD_BLOCK case: build the candidate gaps,
discard those of width `<= newBlockDuration`, order by distance from
`activeTime`, and place the block inside the nearest gap, snapping to the gap's
right edge when needed.  Fails (`none`) when no gap survives. -/
def findGap (blockNeighbors : List AnimationBlock) (duration : Int)
    (activeTime : Int) (newBlockDuration : Int) : Option (Int × Int) :=
  let gaps0 := gapsBetween 0 blockNeighbors duration
  let gaps1 := gaps0.filter (fun gap => gap.stop - gap.start > newBlockDuration)
  let gaps := sortGapsByDist activeTime gaps1
  match gaps with
  | [] => none
  | gap :: _ =>
    let startTime0 := max activeTime gap.start
    let endTime := min (startTime0 + newBlockDuration) gap.stop
    let startTime :=
      if endTime - startTime0 < newBlockDuration then endTime - newBlockDuration
      else startTime0
    some (startTime, endTime)

/-- The placement the ADD_BLOCK case computes: the source fixes
`newBlockDuration = 100` and the reference cursor `activeTime = 0`. -/
def addBlockPlacement (animation : Animation) (layerId propertyName : String) :
    Option (Int × Int) :=
  findGap (orderedBlocks animation layerId propertyName) animation.duration 0 100

/-! ## Path compatibilizer -/

/-- The normalization applied to the edited path: revert command-type
promotions on every subpath, then delete collapsing subpaths. -/
def normalizeEditedPath (path : Path) : Path :=
  ((List.range path.subPaths.length).foldl (fun q i => q.unconvertSubPath i) path
    ).deleteCollapsingSubPaths

/-- The padding loop: for `i` in `[minIdx, maxIdx)` append to `pathToChange` a
collapsing subpath at the pole of inaccessibility of subpath `i` of
`oppPathToChange`, with that subpath's command count. -/
def addCollapsingRange (pathToChange oppPathToChange : Path) (minIdx maxIdx : Nat) : Path :=
  (List.range' minIdx (maxIdx - minIdx)).foldl
    (fun q i => q.addCollapsingSubPath (oppPathToChange.getPoleOfInaccessibility i)
      (oppPathToChange.numCmds i))
    pathToChange

/-- Equalize subpath counts: when the two counts differ, the path with fewer
subpaths gains the collapsing subpaths. -/
def equalizeSubPathCounts (path opp : Path) : Path × Path :=
  let numSubPaths := path.subPaths.length
  let numOppSubPaths := opp.subPaths.length
  if numSubPaths ≠ numOppSubPaths then
    let minIdx := min numSubPaths numOppSubPaths
    let maxIdx := max numSubPaths numOppSubPaths
    if numSubPaths < numOppSubPaths then
      (addCollapsingRange path opp minIdx maxIdx, opp)
    else
      (path, addCollapsingRange opp path minIdx maxIdx)
  else (path, opp)

/-- One iteration of the per-subpath loop: when the command counts at `subIdx`
agree, unconvert the opposite subpath and reconcile command types via
`AutoAwesome.autoConvert`; otherwise leave the pair untouched. -/
def convertStep (pr : Path × Path) (subIdx : Nat) : Path × Path :=
  if pr.1.numCmds subIdx = pr.2.numCmds subIdx then
    AutoAwesome.autoConvert subIdx pr.1 (pr.2.unconvertSubPath subIdx)
  else pr

def convertAll (bound : Nat) (path opp : Path) : Path × Path :=
  (List.range bound).foldl convertStep (path, opp)

/-- The reconciliation applied after both paths have been normalized (the
edited path fully, the opposite path by collapsing-subpath removal only):
equalize subpath counts, then reconcile command types per index. -/
def reconcileAfterNormalize (path opp : Path) : Path × Path :=
  let numSubPaths := path.subPaths.length
  let numOppSubPaths := opp.subPaths.length
  let pr := equalizeSubPathCounts path opp
  convertAll (max numSubPaths numOppSubPaths) pr.1 pr.2

/-- Lines 730–775 of the reducer: given the already-normalized edited path and
the raw opposite endpoint, produce the pair of path values committed to the
block (edited side first).  When the opposite endpoint is absent nothing else
happens. -/
def reconcilePaths (path : Path) (oppPath0 : Option Path) : Path × Option Path :=
  match oppPath0 with
  | none => (path, none)
  | some opp0 =>
    let opp1 := opp0.deleteCollapsingSubPaths
    let numSubPaths := path.subPaths.length
    let numOppSubPaths := opp1.subPaths.length
    let pr :=
      if numSubPaths ≠ numOppSubPaths then
        let minIdx := min numSubPaths numOppSubPaths
        let maxIdx := max numSubPaths numOppSubPaths
        if numSubPaths < numOppSubPaths then
          (addCollapsingRange path opp1 minIdx maxIdx, opp1)
        else
          (path, addCollapsingRange opp1 path minIdx maxIdx)
      else (path, opp1)
    let pr2 := convertAll (max numSubPaths numOppSubPaths) pr.1 pr.2
    (pr2.1, some pr2.2)

/-- The block data committed by `updatePathAnimationBlock`: both endpoints are
written in the same assignment (`setBlockPathFn` on the edited source and on
its opposite). -/
def committedPathData (source : CanvasType) (path : Path) (fromValue toValue : Option Path) :
    BlockData :=
  let oppPath0 := if source = CanvasType.Start then toValue else fromValue
  let pr := reconcilePaths (normalizeEditedPath path) oppPath0
  if source = CanvasType.Start then .pathBlock (some pr.1) pr.2
  else .pathBlock pr.2 (some pr.1)

/-- `updatePathAnimationBlock(state, blockId, source, path)`.  The source
mutates the found block and animation in place and returns a state whose
timeline carries the mutated animation; the embedding returns the net document.
`none` models the crash when the active animation or the block is missing, or
when the block is not a path block (the untyped JavaScript would misbehave on
the other variants). -/
def updatePathAnimationBlock (state : State) (blockId : String)
    (source : CanvasType) (path : Path) : Option State :=
  let timeline := state.timeline
  let animations := timeline.animations
  match animations.findIdx? (fun a => a.id = timeline.activeAnimationId) with
  | none => none
  | some activeAnimationIndex =>
    match animations[activeAnimationIndex]? with
    | none => none
    | some activeAnimation =>
      match activeAnimation.blocks.findIdx? (fun b => b.id = blockId) with
      | none => none
      | some blockIndex =>
        match activeAnimation.blocks[blockIndex]? with
        | none => none
        | some block =>
          match block.data with
          | .pathBlock fromValue toValue =>
            let newBlock :=
              { block with data := committedPathData source path fromValue toValue }
            let newAnimation :=
              { activeAnimation with
                  blocks := activeAnimation.blocks.set blockIndex newBlock }
            some { state with
                   timeline := { timeline with
                                   animations :=
                                     animations.set activeAnimationIndex newAnimation } }
          | _ => none

/-! ## Reducer -/

/-- Insertion-ordered grouping of the REPLACE_BLOCKS payload by owning
animation id (a JavaScript `Map` keeps first-insertion key order). -/
def groupByAnimationId (blocks : List AnimationBlock) : List (String × List AnimationBlock) :=
  blocks.foldl (fun acc b =>
    if acc.any (fun e => e.1 == b.animationId) then
      acc.map (fun e => if e.1 = b.animationId then (e.1, e.2 ++ [b]) else e)
    else acc ++ [(b.animationId, [b])]) []

/-- Substitute each replacement block by id into the block list (a missing id
leaves the list unchanged, as the JavaScript `newBlocks[-1] = block` write
does). -/
def substituteBlocks (blocks : List AnimationBlock) (replacements : List AnimationBlock) :
    List AnimationBlock :=
  replacements.foldl (fun acc block =>
    match acc.findIdx? (fun b => b.id = block.id) with
    | none => acc
    | some k => acc.set k block) blocks

/-- Apply one grouped REPLACE_BLOCKS entry; `none` models the crash when the
animation id matches no animation. -/
def replaceBlocksStep (acc : Option (List Animation))
    (entry : String × List AnimationBlock) : Option (List Animation) :=
  match acc with
  | none => none
  | some anims =>
    match anims.findIdx? (fun a => a.id = entry.1) with
    | none => none
    | some idx =>
      match anims[idx]? with
      | none => none
      | some animation =>
        some (anims.set idx { animation with
                                blocks := substituteBlocks animation.blocks entry.2 })

/-- `reducer(state, action)`.  `none` models a JavaScript runtime failure
(dereferencing a missing entity); every other branch returns the next document.
The translation preserves the source's branch structure, including the
ADD_BLOCK case's final return, which spreads the timeline captured before the
auto-selection. -/
def reduce (state : State) (action : Action) : Option State :=
  match action with
  | .newWorkspace => some buildInitialState
  | .addAnimations newAnimations =>
    match newAnimations with
    | [] => some state
    | first :: _ =>
      let timeline := state.timeline
      let animations := timeline.animations ++ newAnimations
      let activeAnimationId :=
        if timeline.activeAnimationId = "" then first.id else timeline.activeAnimationId
      some { state with
             timeline := { timeline with
                             animations := animations
                             activeAnimationId := activeAnimationId } }
  | .selectAnimation animationId clearExisting =>
    some (selectAnimationId state animationId clearExisting)
  | .activateAnimation animationId =>
    let timeline := state.timeline
    if animationId = timeline.activeAnimationId then some state
    else some { state with timeline := { timeline with activeAnimationId := animationId } }
  | .replaceAnimations replacementAnimations =>
    match replacementAnimations with
    | [] => some state
    | _ =>
      let timeline := state.timeline
      let animations := timeline.animations.map (fun animation =>
        match replacementAnimations.find? (fun r => r.id = animation.id) with
        | some replacementAnimation => replacementAnimation
        | none => animation)
      some { state with timeline := { timeline with animations := animations } }
  | .addBlock layer propertyName fromValue toValue newBlockId =>
    let timeline := state.timeline
    match timeline.animations.find? (fun anim => anim.id = timeline.activeAnimationId) with
    | none => none
    | some animation =>
      match addBlockPlacement animation layer.id propertyName with
      | none => some state
      | some (startTime, endTime) =>
        let property := (layer.animatableProperties.lookup propertyName)
        let newBlock : AnimationBlock :=
          { id := newBlockId
            layerId := layer.id
            animationId := timeline.activeAnimationId
            propertyName := propertyName
            startTime := startTime
            endTime := endTime
            data :=
              match property with
              | some .pathProp => .pathBlock fromValue.asPath toValue.asPath
              | some .colorProp => .colorBlock fromValue.asColor toValue.asColor
              | _ => .numberBlock fromValue.asNumber toValue.asNumber }
        let animations := timeline.animations.map (fun anim =>
          if anim.id ≠ animation.id then anim
          else { anim with blocks := anim.blocks ++ [newBlock] })
        let state2 := selectBlockId state newBlock.id true
        some { state2 with timeline := { timeline with animations := animations } }
  | .selectBlock blockId clearExisting =>
    some (selectBlockId state blockId clearExisting)
  | .replaceBlocks blocks =>
    match blocks with
    | [] => some state
    | _ =>
      let blockMap := groupByAnimationId blocks
      let timeline := state.timeline
      match blockMap.foldl replaceBlocksStep (some timeline.animations) with
      | none => none
      | some animations =>
        some { state with timeline := { timeline with animations := animations } }
  | .updatePathBlock blockId source path =>
    updatePathAnimationBlock state blockId source path
  | .addLayers addedLayers =>
    match addedLayers with
    | [] => some state
    | _ =>
      let addedVectorLayers := addedLayers.filter (fun l => l.isVectorLayer)
      let layers := state.layers
      let existingVectorLayers := layers.vectorLayers ++ addedVectorLayers
      let addedNonVectorLayers := addedLayers.filter (fun l => !l.isVectorLayer)
      let activeVectorLayerId := layers.activeVectorLayerId
      match existingVectorLayers.findIdx? (fun vl => vl.id = activeVectorLayerId) with
      | none => none
      | some activeVlIndex =>
        match existingVectorLayers[activeVlIndex]? with
        | none => none
        | some vl =>
          let vl2 := Layer.node vl.id vl.isVectorLayer vl.animatableProperties
            (vl.children ++ addedNonVectorLayers)
          some { state with
                 layers := { layers with
                               vectorLayers := existingVectorLayers.set activeVlIndex vl2 } }
  | .selectLayer layerId shouldToggle clearExisting =>
    selectLayerId state layerId shouldToggle clearExisting
  | .clearLayerSelections =>
    let layers := state.layers
    some { state with layers := { layers with selectedLayerIds := [] } }
  | .toggleLayerExpansion layerId recursive =>
    let layers := state.layers
    let layerIds :=
      if recursive then
        match subtreeIdsList layers.vectorLayers layerId with
        | some ids => ids.foldl jsSetAdd [layerId]
        | none => [layerId]
      else [layerId]
    let collapsedLayerIds :=
      if jsSetHas layers.collapsedLayerIds layerId then
        layerIds.foldl jsSetDelete layers.collapsedLayerIds
      else layerIds.foldl jsSetAdd layers.collapsedLayerIds
    some { state with layers := { layers with collapsedLayerIds := collapsedLayerIds } }
  | .toggleLayerVisibility layerId =>
    let layers := state.layers
    let hiddenLayerIds :=
      if jsSetHas layers.hiddenLayerIds layerId then jsSetDelete layers.hiddenLayerIds layerId
      else jsSetAdd layers.hiddenLayerIds layerId
    some { state with layers := { layers with hiddenLayerIds := hiddenLayerIds } }
  | .replaceLayer replacementLayer =>
    let layers := state.layers
    if replacementLayer.isVectorLayer then
      let vectorLayers := layers.vectorLayers.map (fun vl =>
        if vl.id = replacementLayer.id then replacementLayer else vl)
      some { state with layers := { layers with vectorLayers := vectorLayers } }
    else
      match findParentVectorLayer layers.vectorLayers replacementLayer.id with
      | none => none
      | some vl =>
        let replacementVl := replaceLayerInTree vl replacementLayer
        let vectorLayers := layers.vectorLayers.map (fun v =>
          if v.id = replacementVl.id then replacementVl else v)
        some { state with layers := { layers with vectorLayers := vectorLayers } }
  | .deleteSelectedModels =>
    some (deleteSelectedLayers (deleteSelectedBlocks (deleteSelectedAnimations state)))

/-- True exactly when the source's `reducer` returns its input state object
itself (JavaScript reference equality); every other successful branch
constructs a fresh document object. -/
def reduceNoop (state : State) (action : Action) : Bool :=
  match action with
  | .newWorkspace => false
  | .addAnimations newAnimations => newAnimations.isEmpty
  | .selectAnimation animationId clearExisting =>
    selectAnimationIdNoop state animationId clearExisting
  | .activateAnimation animationId => animationId == state.timeline.activeAnimationId
  | .replaceAnimations replacementAnimations => replacementAnimations.isEmpty
  | .addBlock layer propertyName _ _ _ =>
    let timeline := state.timeline
    match timeline.animations.find? (fun anim => anim.id = timeline.activeAnimationId) with
    | none => false
    | some animation => (addBlockPlacement animation layer.id propertyName).isNone
  | .selectBlock blockId clearExisting => selectBlockIdNoop state blockId clearExisting
  | .replaceBlocks blocks => blocks.isEmpty
  | .updatePathBlock _ _ _ => false
  | .addLayers addedLayers => addedLayers.isEmpty
  | .selectLayer _ _ _ => false
  | .clearLayerSelections => false
  | .toggleLayerExpansion _ _ => false
  | .toggleLayerVisibility _ => false
  | .replaceLayer _ => false
  | .deleteSelectedModels =>
    state.timeline.selectedAnimationIds.length == 0
      && state.timeline.selectedBlockIds.length == 0
      && state.layers.selectedLayerIds.length == 0

/-- Run a sequence of actions from a state; `none` as soon as one fails. -/
def reduceSeq (state : State) : List Action → Option State
  | [] => some state
  | a :: as2 =>
    match reduce state a with
    | none => none
    | some s2 => reduceSeq s2 as2

/-! ## Stated properties -/

/-- Selection exclusivity: at most one of the three selection sets is
non-empty, i.e. at least two of them are empty. -/
def selectionExclusive (s : State) : Prop :=
  (s.timeline.selectedAnimationIds = [] ∧ s.timeline.selectedBlockIds = []) ∨
  (s.timeline.selectedAnimationIds = [] ∧ s.layers.selectedLayerIds = []) ∨
  (s.timeline.selectedBlockIds = [] ∧ s.layers.selectedLayerIds = [])

/-- Well-formed block list for one (layer, property) pair: ordered, pairwise
non-overlapping, and contained in `[0, duration]`. -/
def blocksChainFrom (p duration : Int) : List AnimationBlock → Bool
  | [] => true
  | b :: bs =>
    decide (p ≤ b.startTime) && decide (b.startTime ≤ b.endTime) &&
      decide (b.endTime ≤ duration) && blocksChainFrom b.endTime duration bs

/-- The interpolation-relevant shape of a subpath: collapsing flag, pole, and
command count (command types aside). -/
def SubPath.shape (s : SubPath) : Bool × Point × Nat :=
  (s.isCollapsing, s.pole, s.commands.length)

def Path.shapeAt (p : Path) (j : Nat) : Option (Bool × Point × Nat) :=
  (p.subPaths[j]?).map SubPath.shape

/-! ## Sample data used by the concrete instances -/

/-- The `[100,300)` block for the pair `(L, P)`. -/
def sampleBlockB0 : AnimationBlock :=
  { id := "b0", layerId := "L", animationId := "anim1", propertyName := "P",
    startTime := 100, endTime := 300, data := .pathBlock none none }

def sampleAnimation1 : Animation :=
  { id := "anim1", duration := 1000, blocks := [sampleBlockB0] }

def sampleLayerL : Layer :=
  .node "L" false [("P", PropKind.pathProp)] []

def sampleLayersState : LayersState :=
  { vectorLayers := [defaultVectorLayer "vl1"], activeVectorLayerId := "vl1",
    selectedLayerIds := [], collapsedLayerIds := [], hiddenLayerIds := [] }

/-- Active animation of duration 1000 with one block `[100,300)`; no
selections. -/
def sampleStateGap : State :=
  { layers := sampleLayersState
    timeline := { animations := [sampleAnimation1], selectedAnimationIds := [],
                  activeAnimationId := "anim1", selectedBlockIds := [] } }

/-- The block the Gap Finder example expects: `[300,400)`. -/
def sampleNewBlock : AnimationBlock :=
  { id := "new-block", layerId := "L", animationId := "anim1", propertyName := "P",
    startTime := 300, endTime := 400, data := .pathBlock none none }

/-- Like `sampleStateGap` but with animation `A` selected. -/
def sampleStateSelA : State :=
  { layers := sampleLayersState
    timeline := { animations := [sampleAnimation1], selectedAnimationIds := ["A"],
                  activeAnimationId := "anim1", selectedBlockIds := [] } }

/-- The document produced by selecting animation `A` from the initial state. -/
def sampleSelectedA : State :=
  selectAnimationId initialState "A" true

def plainCmd : Cmd := { ctype := 1, orig := none }

def sampleSubPathA : SubPath :=
  { isCollapsing := false, pole := ⟨1, 1⟩, commands := List.replicate 4 plainCmd }

def sampleSubPathB1 : SubPath :=
  { isCollapsing := false, pole := ⟨2, 2⟩, commands := List.replicate 4 plainCmd }

def sampleSubPathB2 : SubPath :=
  { isCollapsing := false, pole := ⟨5, 7⟩, commands := List.replicate 4 plainCmd }

/-- Start endpoint: one subpath of 4 commands. -/
def samplePathStart : Path := ⟨[sampleSubPathA]⟩

/-- End endpoint: two subpaths of 4 commands each. -/
def samplePathEnd : Path := ⟨[sampleSubPathB1, sampleSubPathB2]⟩

/-- A command carrying a previously-applied command-type promotion. -/
def convertedCmd : Cmd := { ctype := 2, orig := some 0 }

/-- An opposite endpoint with one subpath of 5 commands whose first command
carries a previously-applied promotion. -/
def samplePathOpp : Path :=
  ⟨[{ isCollapsing := false, pole := ⟨3, 3⟩,
      commands := [convertedCmd, plainCmd, plainCmd, plainCmd, plainCmd] }]⟩

/-- A path block whose endpoints are the compatibilizer example paths. -/
def samplePathBlock : AnimationBlock :=
  { id := "pb", layerId := "L", animationId := "anim1", propertyName := "P",
    startTime := 0, endTime := 100,
    data := .pathBlock (some samplePathStart) (some samplePathEnd) }

def sampleAnimationPB : Animation :=
  { id := "anim1", duration := 1000, blocks := [samplePathBlock] }

def sampleStatePB : State :=
  { layers := sampleLayersState
    timeline := { animations := [sampleAnimationPB], selectedAnimationIds := [],
                  activeAnimationId := "anim1", selectedBlockIds := [] } }

def sampleAnimA : Animation := { id := "A", duration := 300, blocks := [] }

def sampleAnimB : Animation := { id := "B", duration := 300, blocks := [] }

/-- Animations `[A, B]`, `A` active and selected. -/
def sampleStateAB : State :=
  { layers := sampleLayersState
    timeline := { animations := [sampleAnimA, sampleAnimB], selectedAnimationIds := ["A"],
                  activeAnimationId := "A", selectedBlockIds := [] } }

/-- The `[300,400)` block created by the ADD_BLOCK failing input of C4. -/
def sampleNewBlockC4 : AnimationBlock :=
  { id := "nb4", layerId := "L", animationId := "anim1", propertyName := "P",
    startTime := 300, endTime := 400, data := .pathBlock none none }

/-- The document the ADD_BLOCK case actually returns on the C4 failing input:
the new block is appended, but `selectedBlockIds` keeps its prior (empty)
value because the returned timeline spreads the pre-selection timeline. -/
def sampleC4Result : State :=
  { layers := sampleLayersState
    timeline := { animations := [{ sampleAnimation1 with
                                     blocks := [sampleBlockB0, sampleNewBlockC4] }],
                  selectedAnimationIds := [], activeAnimationId := "anim1",
                  selectedBlockIds := [] } }

/-- The document `updatePathAnimationBlock` commits: the block at position
`bi` of the animation at position `ai` replaced by `newBlock`. -/
def updatedDocument (state : State) (ai bi : Nat) (animation : Animation)
    (newBlock : AnimationBlock) : State :=
  { state with
    timeline := { state.timeline with
                  animations := state.timeline.animations.set ai
                    { animation with blocks := animation.blocks.set bi newBlock } } }

/-! # Supporting lemmas -/

theorem clearIfNonempty_eq_nil (l : List String) :
    (if l.length ≠ 0 then ([] : List String) else l) = [] := by
  by_cases h : l.length = 0
  · simp [h, List.length_eq_zero.mp h]
  · simp [h]

theorem selectAnimationId_exclusive (s : State) (animationId : String) (clearExisting : Bool)
    (h : selectionExclusive s) :
    selectionExclusive (selectAnimationId s animationId clearExisting) := by
  unfold selectAnimationId
  dsimp only
  split <;> split <;>
    first
      | exact h
      | exact Or.inr (Or.inr ⟨clearIfNonempty_eq_nil _, clearIfNonempty_eq_nil _⟩)

theorem selectBlockId_exclusive (s : State) (blockId : String) (clearExisting : Bool)
    (h : selectionExclusive s) :
    selectionExclusive (selectBlockId s blockId clearExisting) := by
  unfold selectBlockId
  dsimp only
  split <;> split <;>
    first
      | exact h
      | exact Or.inr (Or.inl ⟨clearIfNonempty_eq_nil _, clearIfNonempty_eq_nil _⟩)

theorem selectBlockId_layers (s : State) (blockId : String) (clearExisting : Bool) :
    (selectBlockId s blockId clearExisting).layers.selectedLayerIds = [] ∨
      selectBlockId s blockId clearExisting = s := by
  unfold selectBlockId
  dsimp only
  split <;> split <;>
    first
      | exact Or.inr rfl
      | exact Or.inl (clearIfNonempty_eq_nil _)

theorem selectLayerId_exclusive (s s2 : State) (layerId : String) (tog clear : Bool)
    (h : selectLayerId s layerId tog clear = some s2) : selectionExclusive s2 := by
  unfold selectLayerId at h
  dsimp only at h
  split at h
  · exact absurd h (by simp)
  · split at h <;>
      (rw [Option.some_inj] at h; subst h;
       exact Or.inl ⟨clearIfNonempty_eq_nil _, clearIfNonempty_eq_nil _⟩)

theorem deleteSelectedAnimations_exclusive (s : State)
    (h : selectionExclusive s) : selectionExclusive (deleteSelectedAnimations s) := by
  unfold deleteSelectedAnimations
  dsimp only
  split
  · exact h
  · rcases h with ⟨_, h2⟩ | ⟨_, h2⟩ | ⟨h1, h2⟩
    · exact Or.inl ⟨rfl, h2⟩
    · exact Or.inr (Or.inl ⟨rfl, h2⟩)
    · exact Or.inr (Or.inr ⟨h1, h2⟩)

theorem deleteSelectedBlocks_exclusive (s : State)
    (h : selectionExclusive s) : selectionExclusive (deleteSelectedBlocks s) := by
  unfold deleteSelectedBlocks
  dsimp only
  split
  · exact h
  · rcases h with ⟨h1, _⟩ | ⟨h1, h2⟩ | ⟨_, h2⟩
    · exact Or.inl ⟨h1, rfl⟩
    · exact Or.inr (Or.inl ⟨h1, h2⟩)
    · exact Or.inr (Or.inr ⟨rfl, h2⟩)

theorem deleteSelectedLayers_exclusive (s : State)
    (h : selectionExclusive s) : selectionExclusive (deleteSelectedLayers s) := by
  unfold deleteSelectedLayers
  dsimp only
  split
  · exact h
  · rcases h with ⟨h1, h2⟩ | ⟨h1, _⟩ | ⟨h2, _⟩
    · exact Or.inl ⟨h1, h2⟩
    · exact Or.inr (Or.inl ⟨h1, rfl⟩)
    · exact Or.inr (Or.inr ⟨h2, rfl⟩)

/-- Every successful reduction preserves selection exclusivity. -/
theorem reduce_exclusive (s : State) (a : Action) (s2 : State)
    (h : selectionExclusive s) (hr : reduce s a = some s2) : selectionExclusive s2 := by
  cases a with
  | newWorkspace =>
    simp only [reduce, Option.some_inj] at hr
    subst hr
    exact Or.inl ⟨rfl, rfl⟩
  | addAnimations newAnimations =>
    cases newAnimations with
    | nil => simp only [reduce, Option.some_inj] at hr; subst hr; exact h
    | cons first rest =>
      simp only [reduce, Option.some_inj] at hr
      subst hr
      exact h
  | selectAnimation animationId clearExisting =>
    simp only [reduce, Option.some_inj] at hr
    subst hr
    exact selectAnimationId_exclusive s animationId clearExisting h
  | activateAnimation animationId =>
    simp only [reduce] at hr
    split at hr <;> (rw [Option.some_inj] at hr; subst hr)
    · exact h
    · exact h
  | replaceAnimations replacementAnimations =>
    cases replacementAnimations with
    | nil => simp only [reduce, Option.some_inj] at hr; subst hr; exact h
    | cons first rest =>
      simp only [reduce, Option.some_inj] at hr
      subst hr
      exact h
  | addBlock layer propertyName fromValue toValue newBlockId =>
    simp only [reduce] at hr
    split at hr
    · exact absurd hr (by simp)
    · split at hr
      · rw [Option.some_inj] at hr; subst hr; exact h
      · rw [Option.some_inj] at hr
        subst hr
        rcases selectBlockId_layers s newBlockId true with hl | hl
        · rcases h with ⟨h1, h2⟩ | ⟨h1, _⟩ | ⟨h2, _⟩
          · exact Or.inl ⟨h1, h2⟩
          · exact Or.inr (Or.inl ⟨h1, hl⟩)
          · exact Or.inr (Or.inr ⟨h2, hl⟩)
        · rw [hl]
          rcases h with ⟨h1, h2⟩ | ⟨h1, h2⟩ | ⟨h1, h2⟩
          · exact Or.inl ⟨h1, h2⟩
          · exact Or.inr (Or.inl ⟨h1, h2⟩)
          · exact Or.inr (Or.inr ⟨h1, h2⟩)
  | selectBlock blockId clearExisting =>
    simp only [reduce, Option.some_inj] at hr
    subst hr
    exact selectBlockId_exclusive s blockId clearExisting h
  | replaceBlocks blocks =>
    cases blocks with
    | nil => simp only [reduce, Option.some_inj] at hr; subst hr; exact h
    | cons first rest =>
      simp only [reduce] at hr
      split at hr
      · exact absurd hr (by simp)
      · rw [Option.some_inj] at hr; subst hr; exact h
  | updatePathBlock blockId source path =>
    simp only [reduce, updatePathAnimationBlock] at hr
    split at hr
    · exact absurd hr (by simp)
    · split at hr
      · exact absurd hr (by simp)
      · split at hr
        · exact absurd hr (by simp)
        · split at hr
          · exact absurd hr (by simp)
          · split at hr
            · rw [Option.some_inj] at hr; subst hr; exact h
            · exact absurd hr (by simp)
  | addLayers addedLayers =>
    cases addedLayers with
    | nil => simp only [reduce, Option.some_inj] at hr; subst hr; exact h
    | cons first rest =>
      simp only [reduce] at hr
      split at hr
      · exact absurd hr (by simp)
      · split at hr
        · exact absurd hr (by simp)
        · rw [Option.some_inj] at hr; subst hr; exact h
  | selectLayer layerId shouldToggle clearExisting =>
    exact selectLayerId_exclusive s s2 layerId shouldToggle clearExisting hr
  | clearLayerSelections =>
    simp only [reduce, Option.some_inj] at hr
    subst hr
    rcases h with ⟨h1, h2⟩ | ⟨h1, _⟩ | ⟨h2, _⟩
    · exact Or.inl ⟨h1, h2⟩
    · exact Or.inr (Or.inl ⟨h1, rfl⟩)
    · exact Or.inr (Or.inr ⟨h2, rfl⟩)
  | toggleLayerExpansion layerId recursive =>
    simp only [reduce, Option.some_inj] at hr
    subst hr
    exact h
  | toggleLayerVisibility layerId =>
    simp only [reduce, Option.some_inj] at hr
    subst hr
    exact h
  | replaceLayer replacementLayer =>
    simp only [reduce] at hr
    split at hr
    · rw [Option.some_inj] at hr; subst hr; exact h
    · split at hr
      · exact absurd hr (by simp)
      · rw [Option.some_inj] at hr; subst hr; exact h
  | deleteSelectedModels =>
    simp only [reduce, Option.some_inj] at hr
    subst hr
    exact deleteSelectedLayers_exclusive _
      (deleteSelectedBlocks_exclusive _ (deleteSelectedAnimations_exclusive _ h))

theorem reduceSeq_exclusive (acts : List Action) (s s2 : State)
    (h : selectionExclusive s) (hr : reduceSeq s acts = some s2) : selectionExclusive s2 := by
  induction acts generalizing s with
  | nil => simp only [reduceSeq, Option.some_inj] at hr; subst hr; exact h
  | cons a rest ih =>
    simp only [reduceSeq] at hr
    split at hr
    · exact absurd hr (by simp)
    · next s1 heq => exact ih s1 (reduce_exclusive s a s1 h heq) hr

theorem deleteSelectedLayers_timeline (s : State) :
    (deleteSelectedLayers s).timeline = s.timeline := by
  unfold deleteSelectedLayers
  dsimp only
  split <;> rfl

theorem deleteSelectedAnimations_post (s : State) (hA : s.timeline.animations ≠ []) :
    (deleteSelectedAnimations s).timeline.animations ≠ [] ∧
    (deleteSelectedAnimations s).timeline.selectedAnimationIds = [] ∧
    (deleteSelectedAnimations s).timeline.selectedBlockIds = s.timeline.selectedBlockIds ∧
    (deleteSelectedAnimations s).layers = s.layers ∧
    (jsSetHas s.timeline.selectedAnimationIds s.timeline.activeAnimationId = true →
      (deleteSelectedAnimations s).timeline.activeAnimationId =
        ((deleteSelectedAnimations s).timeline.animations.headI).id) := by
  unfold deleteSelectedAnimations
  dsimp only
  split
  · next h0 =>
    refine ⟨hA, List.length_eq_zero.mp h0, rfl, rfl, fun hsel => ?_⟩
    rw [List.length_eq_zero.mp h0] at hsel
    simp [jsSetHas] at hsel
  · refine ⟨?_, rfl, rfl, rfl, fun hsel => ?_⟩
    · dsimp only
      split
      · simp
      · next h2 => exact fun hc => h2 (by rw [hc]; rfl)
    · dsimp only
      rw [if_pos hsel]

theorem deleteSelectedBlocks_post (s : State) :
    (s.timeline.animations ≠ [] → (deleteSelectedBlocks s).timeline.animations ≠ []) ∧
    (deleteSelectedBlocks s).timeline.selectedAnimationIds = s.timeline.selectedAnimationIds ∧
    (deleteSelectedBlocks s).timeline.selectedBlockIds = [] ∧
    (deleteSelectedBlocks s).timeline.activeAnimationId = s.timeline.activeAnimationId ∧
    (deleteSelectedBlocks s).layers = s.layers ∧
    ((deleteSelectedBlocks s).timeline.animations.headI).id =
      (s.timeline.animations.headI).id := by
  unfold deleteSelectedBlocks
  dsimp only
  split
  · next h0 => exact ⟨fun h => h, rfl, List.length_eq_zero.mp h0, rfl, rfl, rfl⟩
  · refine ⟨fun h => ?_, rfl, rfl, rfl, rfl, ?_⟩
    · dsimp only
      intro hc
      exact h (List.map_eq_nil_iff.mp hc)
    · dsimp only
      cases s.timeline.animations with
      | nil => rfl
      | cons a rest =>
        simp only [List.map_cons, List.headI_cons]
        split <;> rfl

theorem deleteSelectedLayers_post (s : State) (hV : s.layers.vectorLayers ≠ []) :
    (deleteSelectedLayers s).layers.vectorLayers ≠ [] ∧
    (deleteSelectedLayers s).layers.selectedLayerIds = [] ∧
    (s.layers.selectedLayerIds ≠ [] →
      ((deleteSelectedLayers s).layers.vectorLayers.find?
          (fun vl => vl.id = s.layers.activeVectorLayerId)).isNone = true →
      (deleteSelectedLayers s).layers.activeVectorLayerId =
        ((deleteSelectedLayers s).layers.vectorLayers.headI).id) := by
  unfold deleteSelectedLayers
  dsimp only
  split
  · next h0 =>
    exact ⟨hV, List.length_eq_zero.mp h0,
      fun hs _ => absurd (List.length_eq_zero.mp h0) hs⟩
  · refine ⟨?_, rfl, fun _ hnone => ?_⟩
    · dsimp only
      split
      · simp
      · next h2 => exact fun hc => h2 (by rw [hc]; rfl)
    · dsimp only
      rw [if_pos hnone]

theorem unconvert_shape (s : SubPath) : s.unconvert.shape = s.shape := by
  simp [SubPath.unconvert, SubPath.shape]

theorem unconvertSubPath_getElem (p : Path) (i j : Nat) :
    (p.unconvertSubPath i).subPaths[j]? =
      if j = i then (p.subPaths[j]?).map SubPath.unconvert else p.subPaths[j]? := by
  unfold Path.unconvertSubPath
  by_cases hj : j = i
  · subst hj
    rw [if_pos rfl]
    cases hp : p.subPaths[j]? with
    | none => simp [hp]
    | some s =>
      dsimp only
      rw [List.getElem?_set_eq_of_lt _ (List.getElem?_eq_some.mp hp).1]
      rfl
  · rw [if_neg hj]
    cases hp : p.subPaths[i]? with
    | none => rfl
    | some s =>
      dsimp only
      exact List.getElem?_set_ne (fun h => hj h.symm)

theorem unconvertSubPath_length (p : Path) (i : Nat) :
    (p.unconvertSubPath i).subPaths.length = p.subPaths.length := by
  unfold Path.unconvertSubPath
  cases p.subPaths[i]? <;> simp

theorem unconvertSubPath_shapeAt (p : Path) (i j : Nat) :
    (p.unconvertSubPath i).shapeAt j = p.shapeAt j := by
  unfold Path.shapeAt
  rw [unconvertSubPath_getElem]
  split
  · cases p.subPaths[j]? with
    | none => rfl
    | some s => simp [unconvert_shape]
  · rfl

theorem numCmds_eq (p : Path) (j : Nat) :
    p.numCmds j = ((p.shapeAt j).map (fun t => t.2.2)).getD 0 := by
  unfold Path.numCmds Path.shapeAt
  cases p.subPaths[j]? <;> rfl

theorem unconvertSubPath_numCmds (p : Path) (i j : Nat) :
    (p.unconvertSubPath i).numCmds j = p.numCmds j := by
  rw [numCmds_eq, numCmds_eq, unconvertSubPath_shapeAt]

theorem autoConvertWith_shape (s t : SubPath) (h : s.commands.length = t.commands.length) :
    (SubPath.autoConvertWith s t).1.shape = s.shape ∧
    (SubPath.autoConvertWith s t).2.shape = t.shape := by
  unfold SubPath.autoConvertWith SubPath.shape
  refine ⟨?_, ?_⟩ <;> simp [List.length_zip, h]


theorem convertStep_shapeAt (pr : Path × Path) (i j : Nat) :
    (convertStep pr i).1.shapeAt j = pr.1.shapeAt j ∧
    (convertStep pr i).2.shapeAt j = pr.2.shapeAt j := by
  unfold convertStep
  split
  · next hcnt =>
    unfold AutoAwesome.autoConvert
    cases h1 : pr.1.subPaths[i]? with
    | none =>
      cases h2 : (pr.2.unconvertSubPath i).subPaths[i]? with
      | none => exact ⟨rfl, unconvertSubPath_shapeAt pr.2 i j⟩
      | some t => exact ⟨rfl, unconvertSubPath_shapeAt pr.2 i j⟩
    | some s =>
      cases h2 : (pr.2.unconvertSubPath i).subPaths[i]? with
      | none => exact ⟨rfl, unconvertSubPath_shapeAt pr.2 i j⟩
      | some t =>
        dsimp only
        have hst : s.commands.length = t.commands.length := by
          have e1 : pr.1.numCmds i = s.commands.length := by
            unfold Path.numCmds; rw [h1]
          have e2 : (pr.2.unconvertSubPath i).numCmds i = t.commands.length := by
            unfold Path.numCmds; rw [h2]
          have e3 := unconvertSubPath_numCmds pr.2 i i
          omega
        constructor
        · unfold Path.shapeAt
          by_cases hij : j = i
          · subst hij
            rw [List.getElem?_set_eq_of_lt _ (List.getElem?_eq_some.mp h1).1, h1]
            simp [(autoConvertWith_shape s t hst).1]
          · rw [List.getElem?_set_ne (fun hh => hij hh.symm)]
        · by_cases hij : j = i
          · subst hij
            unfold Path.shapeAt
            dsimp only
            rw [List.getElem?_set_eq_of_lt _ (List.getElem?_eq_some.mp h2).1]
            calc some (SubPath.autoConvertWith s t).2.shape
                = some t.shape := by rw [(autoConvertWith_shape s t hst).2]
              _ = (pr.2.unconvertSubPath j).shapeAt j := by
                    unfold Path.shapeAt; rw [h2]; rfl
              _ = pr.2.shapeAt j := unconvertSubPath_shapeAt pr.2 j j
          · unfold Path.shapeAt
            dsimp only
            rw [List.getElem?_set_ne (fun hh => hij hh.symm), unconvertSubPath_getElem,
              if_neg hij]
  · exact ⟨rfl, rfl⟩

theorem convertStep_length (pr : Path × Path) (i : Nat) :
    (convertStep pr i).1.subPaths.length = pr.1.subPaths.length ∧
    (convertStep pr i).2.subPaths.length = pr.2.subPaths.length := by
  unfold convertStep
  split
  · unfold AutoAwesome.autoConvert
    cases h1 : pr.1.subPaths[i]? with
    | none =>
      cases h2 : (pr.2.unconvertSubPath i).subPaths[i]? with
      | none => exact ⟨rfl, unconvertSubPath_length pr.2 i⟩
      | some t => exact ⟨rfl, unconvertSubPath_length pr.2 i⟩
    | some s =>
      cases h2 : (pr.2.unconvertSubPath i).subPaths[i]? with
      | none => exact ⟨rfl, unconvertSubPath_length pr.2 i⟩
      | some t =>
        dsimp only
        refine ⟨by simp, ?_⟩
        simp [unconvertSubPath_length pr.2 i]
  · exact ⟨rfl, rfl⟩

theorem convertStep_getElem_ne (pr : Path × Path) (i j : Nat) (hij : j ≠ i) :
    (convertStep pr i).1.subPaths[j]? = pr.1.subPaths[j]? ∧
    (convertStep pr i).2.subPaths[j]? = pr.2.subPaths[j]? := by
  unfold convertStep
  split
  · unfold AutoAwesome.autoConvert
    have hbase : (pr.2.unconvertSubPath i).subPaths[j]? = pr.2.subPaths[j]? := by
      rw [unconvertSubPath_getElem, if_neg hij]
    cases h1 : pr.1.subPaths[i]? with
    | none =>
      cases h2 : (pr.2.unconvertSubPath i).subPaths[i]? with
      | none => exact ⟨rfl, hbase⟩
      | some t => exact ⟨rfl, hbase⟩
    | some s =>
      cases h2 : (pr.2.unconvertSubPath i).subPaths[i]? with
      | none => exact ⟨rfl, hbase⟩
      | some t =>
        dsimp only
        exact ⟨List.getElem?_set_ne (fun hh => hij hh.symm),
               (List.getElem?_set_ne (fun hh => hij hh.symm)).trans hbase⟩
  · exact ⟨rfl, rfl⟩

theorem convertStep_skip (pr : Path × Path) (j : Nat)
    (h : ¬ pr.1.numCmds j = pr.2.numCmds j) : convertStep pr j = pr := by
  unfold convertStep
  rw [if_neg h]

theorem convertAll_shapeAt (k : Nat) (p o : Path) (j : Nat) :
    (convertAll k p o).1.shapeAt j = p.shapeAt j ∧
    (convertAll k p o).2.shapeAt j = o.shapeAt j := by
  induction k with
  | zero => exact ⟨rfl, rfl⟩
  | succ k ih =>
    unfold convertAll at ih ⊢
    rw [List.range_succ, List.foldl_append, List.foldl_cons, List.foldl_nil]
    have hs := convertStep_shapeAt ((List.range k).foldl convertStep (p, o)) k j
    exact ⟨hs.1.trans ih.1, hs.2.trans ih.2⟩

theorem convertAll_length (k : Nat) (p o : Path) :
    (convertAll k p o).1.subPaths.length = p.subPaths.length ∧
    (convertAll k p o).2.subPaths.length = o.subPaths.length := by
  induction k with
  | zero => exact ⟨rfl, rfl⟩
  | succ k ih =>
    unfold convertAll at ih ⊢
    rw [List.range_succ, List.foldl_append, List.foldl_cons, List.foldl_nil]
    have hs := convertStep_length ((List.range k).foldl convertStep (p, o)) k
    exact ⟨hs.1.trans ih.1, hs.2.trans ih.2⟩

theorem convertAll_numCmds (k : Nat) (p o : Path) (j : Nat) :
    (convertAll k p o).1.numCmds j = p.numCmds j ∧
    (convertAll k p o).2.numCmds j = o.numCmds j :=
  ⟨by rw [numCmds_eq, numCmds_eq, (convertAll_shapeAt k p o j).1],
   by rw [numCmds_eq, numCmds_eq, (convertAll_shapeAt k p o j).2]⟩

theorem convertAll_getElem_of_ne (k : Nat) (p o : Path) (j : Nat)
    (h : ¬ p.numCmds j = o.numCmds j) :
    (convertAll k p o).1.subPaths[j]? = p.subPaths[j]? ∧
    (convertAll k p o).2.subPaths[j]? = o.subPaths[j]? := by
  induction k with
  | zero => exact ⟨rfl, rfl⟩
  | succ k ih =>
    unfold convertAll at ih ⊢
    rw [List.range_succ, List.foldl_append, List.foldl_cons, List.foldl_nil]
    by_cases hkj : j = k
    · subst hkj
      have hmid : ¬ ((List.range j).foldl convertStep (p, o)).1.numCmds j =
          ((List.range j).foldl convertStep (p, o)).2.numCmds j := by
        have c1 := (convertAll_numCmds j p o j).1
        have c2 := (convertAll_numCmds j p o j).2
        unfold convertAll at c1 c2
        rw [c1, c2]
        exact h
      rw [convertStep_skip _ j hmid]
      exact ih
    · have hs := convertStep_getElem_ne ((List.range k).foldl convertStep (p, o)) k j hkj
      exact ⟨hs.1.trans ih.1, hs.2.trans ih.2⟩


theorem addCollapsingFold_subPaths (p o : Path) (i k : Nat) :
    ((List.range' i k).foldl
        (fun q j => q.addCollapsingSubPath (o.getPoleOfInaccessibility j) (o.numCmds j))
        p).subPaths =
      p.subPaths ++ (List.range' i k).map (fun j =>
        { isCollapsing := true, pole := o.getPoleOfInaccessibility j,
          commands := List.replicate (o.numCmds j) collapsingCmd }) := by
  induction k generalizing i p with
  | zero => simp
  | succ k ih =>
    rw [List.range'_succ]
    simp only [List.foldl_cons, List.map_cons]
    rw [ih]
    simp [Path.addCollapsingSubPath]

theorem addCollapsingRange_subPaths (p o : Path) (minIdx maxIdx : Nat) :
    (addCollapsingRange p o minIdx maxIdx).subPaths =
      p.subPaths ++ (List.range' minIdx (maxIdx - minIdx)).map (fun j =>
        { isCollapsing := true, pole := o.getPoleOfInaccessibility j,
          commands := List.replicate (o.numCmds j) collapsingCmd }) :=
  addCollapsingFold_subPaths p o minIdx (maxIdx - minIdx)

theorem addCollapsingRange_length (p o : Path) (minIdx maxIdx : Nat) :
    (addCollapsingRange p o minIdx maxIdx).subPaths.length =
      p.subPaths.length + (maxIdx - minIdx) := by
  rw [addCollapsingRange_subPaths]
  simp

theorem addCollapsingRange_shapeAt_high (p o : Path) (minIdx maxIdx j : Nat)
    (h1 : p.subPaths.length = minIdx) (h2 : minIdx ≤ j) (h3 : j < maxIdx) :
    (addCollapsingRange p o minIdx maxIdx).shapeAt j =
      some (true, o.getPoleOfInaccessibility j, o.numCmds j) := by
  unfold Path.shapeAt
  rw [addCollapsingRange_subPaths, List.getElem?_append_right (by omega),
    List.getElem?_map, List.getElem?_range']
  have hj : minIdx + 1 * (j - p.subPaths.length) = j := by omega
  rw [hj]
  simp [SubPath.shape]
  omega


theorem equalize_lt (p o : Path) (hlt : p.subPaths.length < o.subPaths.length) :
    equalizeSubPathCounts p o =
      (addCollapsingRange p o p.subPaths.length o.subPaths.length, o) := by
  unfold equalizeSubPathCounts
  rw [if_pos (by omega : ¬ p.subPaths.length = o.subPaths.length), if_pos hlt,
    Nat.min_eq_left (le_of_lt hlt), Nat.max_eq_right (le_of_lt hlt)]

theorem equalize_gt (p o : Path) (hgt : o.subPaths.length < p.subPaths.length) :
    equalizeSubPathCounts p o =
      (p, addCollapsingRange o p o.subPaths.length p.subPaths.length) := by
  unfold equalizeSubPathCounts
  rw [if_pos (by omega : ¬ p.subPaths.length = o.subPaths.length),
    if_neg (by omega : ¬ p.subPaths.length < o.subPaths.length),
    Nat.min_eq_right (le_of_lt hgt), Nat.max_eq_left (le_of_lt hgt)]

theorem reconcilePaths_eq (path opp0 : Path) :
    reconcilePaths path (some opp0) =
      ((reconcileAfterNormalize path opp0.deleteCollapsingSubPaths).1,
       some (reconcileAfterNormalize path opp0.deleteCollapsingSubPaths).2) := by
  unfold reconcilePaths reconcileAfterNormalize equalizeSubPathCounts
  rfl

theorem reconcileAfterNormalize_padding (p o : Path)
    (h : ¬ p.subPaths.length = o.subPaths.length) :
    (reconcileAfterNormalize p o).1.subPaths.length =
      max p.subPaths.length o.subPaths.length ∧
    (reconcileAfterNormalize p o).2.subPaths.length =
      max p.subPaths.length o.subPaths.length ∧
    ∀ j, min p.subPaths.length o.subPaths.length ≤ j →
      j < max p.subPaths.length o.subPaths.length →
      ((p.subPaths.length < o.subPaths.length →
         (reconcileAfterNormalize p o).1.shapeAt j =
           some (true, o.getPoleOfInaccessibility j, o.numCmds j)) ∧
       (o.subPaths.length < p.subPaths.length →
         (reconcileAfterNormalize p o).2.shapeAt j =
           some (true, p.getPoleOfInaccessibility j, p.numCmds j))) := by
  rcases Nat.lt_or_ge p.subPaths.length o.subPaths.length with hlt | hge
  · unfold reconcileAfterNormalize
    rw [equalize_lt p o hlt]
    dsimp only
    refine ⟨?_, ?_, ?_⟩
    · rw [(convertAll_length _ _ _).1, addCollapsingRange_length]
      omega
    · rw [(convertAll_length _ _ _).2]
      omega
    · intro j hj1 hj2
      refine ⟨fun _ => ?_, fun hgt => absurd hgt (by omega)⟩
      rw [(convertAll_shapeAt _ _ _ j).1,
        addCollapsingRange_shapeAt_high p o _ _ j rfl (by omega) (by omega)]
  · have hgt : o.subPaths.length < p.subPaths.length := by omega
    unfold reconcileAfterNormalize
    rw [equalize_gt p o hgt]
    dsimp only
    refine ⟨?_, ?_, ?_⟩
    · rw [(convertAll_length _ _ _).1]
      omega
    · rw [(convertAll_length _ _ _).2, addCollapsingRange_length]
      omega
    · intro j hj1 hj2
      refine ⟨fun hlt => absurd hlt (by omega), fun _ => ?_⟩
      rw [(convertAll_shapeAt _ _ _ j).2,
        addCollapsingRange_shapeAt_high o p _ _ j rfl (by omega) (by omega)]

theorem pathSubPathsExt (p q : Path) (h : p.subPaths = q.subPaths) : p = q := by
  cases p; cases q; cases h; rfl

theorem foldl_unconvert_getElem (p : Path) (k j : Nat) :
    ((List.range k).foldl (fun q i => q.unconvertSubPath i) p).subPaths[j]? =
      if j < k then (p.subPaths[j]?).map SubPath.unconvert else p.subPaths[j]? := by
  induction k with
  | zero => simp
  | succ k ih =>
    rw [List.range_succ, List.foldl_append, List.foldl_cons, List.foldl_nil]
    rw [unconvertSubPath_getElem]
    by_cases hjk : j = k
    · subst hjk
      rw [if_pos rfl, ih, if_neg (by omega), if_pos (by omega)]
    · rw [if_neg hjk, ih]
      by_cases hlt : j < k
      · rw [if_pos hlt, if_pos (by omega)]
      · rw [if_neg hlt, if_neg (by omega)]

theorem unconvertAll_eq_map (p : Path) :
    (List.range p.subPaths.length).foldl (fun q i => q.unconvertSubPath i) p =
      ⟨p.subPaths.map SubPath.unconvert⟩ := by
  apply pathSubPathsExt
  apply List.ext_getElem?
  intro j
  rw [foldl_unconvert_getElem]
  by_cases hj : j < p.subPaths.length
  · rw [if_pos hj]
    simp
  · rw [if_neg hj]
    have h1 : p.subPaths[j]? = none := List.getElem?_eq_none (by omega)
    simp [h1]

theorem normalizeEditedPath_eq (path : Path) :
    normalizeEditedPath path =
      Path.deleteCollapsingSubPaths ⟨path.subPaths.map SubPath.unconvert⟩ := by
  unfold normalizeEditedPath
  rw [unconvertAll_eq_map]

theorem chain_start (q duration : Int) (bs : List AnimationBlock)
    (hc : blocksChainFrom q duration bs = true) :
    ∀ b ∈ bs, q ≤ b.startTime := by
  induction bs generalizing q with
  | nil => intro b hb; cases hb
  | cons b bs ih =>
    simp only [blocksChainFrom, Bool.and_eq_true, decide_eq_true_eq] at hc
    obtain ⟨⟨⟨h1, h2⟩, h3⟩, h4⟩ := hc
    intro b2 hb2
    rcases List.mem_cons.mp hb2 with h | h
    · subst h; exact h1
    · have := ih b.endTime h4 b2 h
      omega

theorem gapsBetween_start (q duration : Int) (bs : List AnimationBlock)
    (hc : blocksChainFrom q duration bs = true) :
    ∀ g ∈ gapsBetween q bs duration, q ≤ g.start := by
  induction bs generalizing q with
  | nil =>
    intro g hg
    simp only [gapsBetween, List.mem_singleton] at hg
    subst hg
    exact le_refl q
  | cons b bs ih =>
    simp only [blocksChainFrom, Bool.and_eq_true, decide_eq_true_eq] at hc
    obtain ⟨⟨⟨h1, h2⟩, h3⟩, h4⟩ := hc
    intro g hg
    rcases List.mem_cons.mp hg with h | h
    · subst h; exact le_refl q
    · have := ih b.endTime h4 g h
      omega

theorem gapsBetween_sound (bs : List AnimationBlock) (q duration : Int)
    (hq : 0 ≤ q) (hc : blocksChainFrom q duration bs = true) :
    ∀ g ∈ gapsBetween q bs duration,
      0 ≤ g.start ∧ g.stop ≤ duration ∧
      ∀ b ∈ bs, g.stop ≤ b.startTime ∨ b.endTime ≤ g.start := by
  induction bs generalizing q with
  | nil =>
    intro g hg
    simp only [gapsBetween, List.mem_singleton] at hg
    subst hg
    exact ⟨hq, le_refl duration, by simp⟩
  | cons b bs ih =>
    simp only [blocksChainFrom, Bool.and_eq_true, decide_eq_true_eq] at hc
    obtain ⟨⟨⟨h1, h2⟩, h3⟩, h4⟩ := hc
    intro g hg
    rcases List.mem_cons.mp hg with h | h
    · subst h
      dsimp only
      refine ⟨hq, by omega, fun b2 hb2 => ?_⟩
      rcases List.mem_cons.mp hb2 with h5 | h5
      · rw [h5]
        exact Or.inl (le_refl _)
      · have := chain_start b.endTime duration bs h4 b2 h5
        exact Or.inl (by omega)
    · obtain ⟨c1, c2, c3⟩ := ih b.endTime (by omega) h4 g h
      refine ⟨c1, c2, fun b2 hb2 => ?_⟩
      rcases List.mem_cons.mp hb2 with h5 | h5
      · have := gapsBetween_start b.endTime duration bs h4 g h
        rw [h5]
        exact Or.inr (by omega)
      · exact c3 b2 h5

theorem mem_insertGapByDist (t : Int) (g0 h : Gap) (l : List Gap)
    (hm : h ∈ insertGapByDist t g0 l) : h = g0 ∨ h ∈ l := by
  induction l with
  | nil => simpa [insertGapByDist] using hm
  | cons a l ih =>
    unfold insertGapByDist at hm
    split at hm
    · rcases List.mem_cons.mp hm with h1 | h1
      · exact Or.inl h1
      · exact Or.inr h1
    · rcases List.mem_cons.mp hm with h1 | h1
      · exact Or.inr (h1 ▸ List.mem_cons_self a l)
      · rcases ih h1 with h2 | h2
        · exact Or.inl h2
        · exact Or.inr (List.mem_cons_of_mem a h2)

theorem mem_sortGapsByDist (t : Int) (g : Gap) (l : List Gap)
    (hm : g ∈ sortGapsByDist t l) : g ∈ l := by
  induction l with
  | nil => simp [sortGapsByDist] at hm
  | cons a l ih =>
    unfold sortGapsByDist at hm
    rcases mem_insertGapByDist t a g _ hm with h1 | h1
    · exact h1 ▸ List.mem_cons_self a l
    · exact List.mem_cons_of_mem a (ih h1)

theorem findGap_sound (bs : List AnimationBlock) (duration s e : Int)
    (hc : blocksChainFrom 0 duration bs = true)
    (h : findGap bs duration 0 100 = some (s, e)) :
    e - s = 100 ∧ 0 ≤ s ∧ e ≤ duration ∧
    ∀ b ∈ bs, e ≤ b.startTime ∨ b.endTime ≤ s := by
  unfold findGap at h
  dsimp only at h
  cases hsort : sortGapsByDist 0 ((gapsBetween 0 bs duration).filter
      (fun gap => decide (gap.stop - gap.start > 100))) with
  | nil => rw [hsort] at h; exact absurd h (by simp)
  | cons g rest =>
    rw [hsort] at h
    dsimp only at h
    have hmem : g ∈ (gapsBetween 0 bs duration).filter
        (fun gap => decide (gap.stop - gap.start > 100)) :=
      mem_sortGapsByDist _ _ _ (hsort ▸ List.mem_cons_self g rest)
    have hwide : g.stop - g.start > 100 := by
      have := (List.mem_filter.mp hmem).2
      simpa using this
    obtain ⟨hg0, hgd, hgb⟩ :=
      gapsBetween_sound bs 0 duration (le_refl 0) hc g (List.mem_filter.mp hmem).1
    split at h
    · rw [Option.some_inj] at h
      injection h with h1 h2
      subst h1; subst h2
      refine ⟨by omega, by omega, by omega, fun b hb => ?_⟩
      rcases hgb b hb with hl | hr
      · left; omega
      · right; omega
    · rw [Option.some_inj] at h
      injection h with h1 h2
      subst h1; subst h2
      next hns =>
      refine ⟨by omega, by omega, by omega, fun b hb => ?_⟩
      rcases hgb b hb with hl | hr
      · left; omega
      · right; omega

/-! # Claim theorems -/

/-- C1: for every Document reachable from the initial state by any sequence of
actions through `reduce`, at most one of the three selection sets
(`selectedAnimationIds`, `selectedBlockIds`, `selectedLayerIds`) is
non-empty. -/
theorem C1_selection_exclusivity (acts : List Action) (s2 : State)
    (h : reduceSeq initialState acts = some s2) : selectionExclusive s2 :=
  reduceSeq_exclusive acts initialState s2 (Or.inl ⟨rfl, rfl⟩) h

theorem C1_selection_exclusivity_witness :
    reduceSeq initialState [Action.selectAnimation "A" true] = some sampleSelectedA ∧
      selectionExclusive sampleSelectedA :=
  ⟨rfl, C1_selection_exclusivity [Action.selectAnimation "A" true] sampleSelectedA rfl⟩

/-- C2: for every state and UpdatePathBlock action naming an existing path
block of the active animation, the returned document's timeline carries that
block with both endpoints replaced in one committed value: the edited side
becomes the reconciled edited path and the opposite side the reconciled
opposite path, with no intermediate document exposing only one updated
endpoint. -/
theorem C2_update_path_block_atomic
    (state : State) (blockId : String) (source : CanvasType) (path : Path)
    (ai bi : Nat) (animation : Animation) (block : AnimationBlock)
    (fromValue toValue : Option Path)
    (hai : state.timeline.animations.findIdx?
      (fun a => a.id = state.timeline.activeAnimationId) = some ai)
    (ha : state.timeline.animations[ai]? = some animation)
    (hbi : animation.blocks.findIdx? (fun b => b.id = blockId) = some bi)
    (hb : animation.blocks[bi]? = some block)
    (hd : block.data = BlockData.pathBlock fromValue toValue) :
    reduce state (.updatePathBlock blockId source path) =
      some (updatedDocument state ai bi animation
        { block with data := committedPathData source path fromValue toValue }) ∧
    (animation.blocks.set bi
        { block with data := committedPathData source path fromValue toValue })[bi]? =
      some { block with data := committedPathData source path fromValue toValue } ∧
    committedPathData source path fromValue toValue =
      (if source = CanvasType.Start then
        BlockData.pathBlock (some (reconcilePaths (normalizeEditedPath path) toValue).1)
          (reconcilePaths (normalizeEditedPath path) toValue).2
       else
        BlockData.pathBlock (reconcilePaths (normalizeEditedPath path) fromValue).2
          (some (reconcilePaths (normalizeEditedPath path) fromValue).1)) := by
  refine ⟨?_, ?_, ?_⟩
  · simp only [reduce, updatePathAnimationBlock, hai, ha, hbi, hb, hd, updatedDocument]
  · obtain ⟨hlt, _⟩ := List.getElem?_eq_some.mp hb
    exact List.getElem?_set_eq_of_lt _ hlt
  · cases source <;> rfl

theorem C2_update_path_block_atomic_witness :
    (reduce sampleStatePB (.updatePathBlock "pb" CanvasType.Start samplePathStart) =
      some (updatedDocument sampleStatePB 0 0 sampleAnimationPB
        { samplePathBlock with
            data := committedPathData CanvasType.Start samplePathStart
              (some samplePathStart) (some samplePathEnd) })) ∧
    ((sampleAnimationPB.blocks.set 0
        { samplePathBlock with
            data := committedPathData CanvasType.Start samplePathStart
              (some samplePathStart) (some samplePathEnd) })[0]? =
      some { samplePathBlock with
               data := committedPathData CanvasType.Start samplePathStart
                 (some samplePathStart) (some samplePathEnd) }) ∧
    committedPathData CanvasType.Start samplePathStart
        (some samplePathStart) (some samplePathEnd) =
      (if CanvasType.Start = CanvasType.Start then
        BlockData.pathBlock
          (some (reconcilePaths (normalizeEditedPath samplePathStart) (some samplePathEnd)).1)
          (reconcilePaths (normalizeEditedPath samplePathStart) (some samplePathEnd)).2
       else
        BlockData.pathBlock
          (reconcilePaths (normalizeEditedPath samplePathStart) (some samplePathStart)).2
          (some (reconcilePaths (normalizeEditedPath samplePathStart) (some samplePathStart)).1)) :=
  C2_update_path_block_atomic sampleStatePB "pb" CanvasType.Start samplePathStart 0 0
    sampleAnimationPB samplePathBlock (some samplePathStart) (some samplePathEnd)
    rfl rfl rfl rfl rfl

/-- C3: the claim fails on the code.  `selectAnimationId` reads
`timeline.selectedBlockIds` into the variable named `oldSelectedAnimationIds`,
so from a state with `selectedAnimationIds = {A}` and no block selection,
selecting `B` without clearing yields `{B}` instead of the claimed
`{A} ∪ {B} = {A, B}`; and re-selecting the already-selected `A` does not take
the do-nothing branch even though the selection value is unchanged. -/
theorem C3_selectanimation_wrong_prior_set :
    (selectAnimationId sampleStateSelA "B" false).timeline.selectedAnimationIds = ["B"] ∧
    jsSetEq ["B"] ["A", "B"] = false ∧
    selectAnimationIdNoop sampleStateSelA "A" true = false ∧
    (selectAnimationId sampleStateSelA "A" true).timeline.selectedAnimationIds =
      sampleStateSelA.timeline.selectedAnimationIds :=
  ⟨rfl, rfl, rfl, rfl⟩

/-- C4: the claim fails on the code.  On a successful ADD_BLOCK the new block
is appended to the active animation, but the returned document spreads the
timeline captured before the auto-selection, so `selectedBlockIds` keeps its
prior value (empty here) instead of becoming the singleton of the new block's
id. -/
theorem C4_addblock_autoselect_lost :
    reduce sampleStateGap
        (.addBlock sampleLayerL "P" (.pathValue none) (.pathValue none) "nb4") =
      some sampleC4Result ∧
    sampleC4Result.timeline.selectedBlockIds = [] ∧
    sampleC4Result.timeline.selectedBlockIds ≠ ["nb4"] :=
  ⟨rfl, rfl, by decide⟩

/-- C5: the Gap Finder example.  With an active animation of duration 1000 and
one block `[100,300)` for `(L,P)`, the candidate gaps are `[0,100)` (discarded:
width not strictly greater than 100) and `[300,1000)`; the placement is
`start = max(0,300) = 300`, `end = min(400,1000) = 400`, and ADD_BLOCK appends
the block `[300,400)` to the active animation. -/
theorem C5_gap_finder_example :
    gapsBetween 0 [sampleBlockB0] 1000 = [⟨0, 100⟩, ⟨300, 1000⟩] ∧
    findGap [sampleBlockB0] 1000 0 100 = some (300, 400) ∧
    reduce sampleStateGap
        (.addBlock sampleLayerL "P" (.pathValue none) (.pathValue none) "new-block") =
      some { layers := sampleLayersState
             timeline := { animations := [{ sampleAnimation1 with
                                              blocks := [sampleBlockB0, sampleNewBlock] }],
                           selectedAnimationIds := [], activeAnimationId := "anim1",
                           selectedBlockIds := [] } } :=
  ⟨rfl, rfl, rfl⟩

/-- C9: the claim fails on the code for SelectAnimation.  A second application
of the same SelectAnimation action reproduces the same document value, but the
do-nothing guard (which compares against `selectedBlockIds`) does not fire, so
the reducer allocates a fresh document instead of returning its input by
reference.  ActivateAnimation's duplicate-activation guard does fire. -/
theorem C9_selectanimation_not_ref_idempotent :
    reduce initialState (.selectAnimation "A" true) = some sampleSelectedA ∧
    reduce sampleSelectedA (.selectAnimation "A" true) = some sampleSelectedA ∧
    reduceNoop sampleSelectedA (.selectAnimation "A" true) = false ∧
    reduceNoop initialState (.activateAnimation initialAnimationId) = true :=
  ⟨rfl, rfl, rfl, rfl⟩

/-- C8: after DeleteSelectedModels both pools are non-empty (a fresh default
element replaces a fully deleted pool), the three selection sets are cleared,
and when the previously active animation (selected) or vector layer (no longer
present) was deleted the active id is reassigned to the first remaining
element; the `[A,B]` instance is the witness. -/
theorem C8_delete_selected_models (s s2 : State)
    (hr : reduce s .deleteSelectedModels = some s2)
    (hA : s.timeline.animations ≠ [])
    (hV : s.layers.vectorLayers ≠ []) :
    s2.timeline.animations ≠ [] ∧
    s2.layers.vectorLayers ≠ [] ∧
    s2.timeline.selectedAnimationIds = [] ∧
    s2.timeline.selectedBlockIds = [] ∧
    s2.layers.selectedLayerIds = [] ∧
    (jsSetHas s.timeline.selectedAnimationIds s.timeline.activeAnimationId = true →
      s2.timeline.activeAnimationId = (s2.timeline.animations.headI).id) ∧
    (s.layers.selectedLayerIds ≠ [] →
      (s2.layers.vectorLayers.find?
          (fun vl => vl.id = s.layers.activeVectorLayerId)).isNone = true →
      s2.layers.activeVectorLayerId = (s2.layers.vectorLayers.headI).id) := by
  simp only [reduce, Option.some_inj] at hr
  subst hr
  obtain ⟨a1, a2, a3, a4, a5⟩ := deleteSelectedAnimations_post s hA
  obtain ⟨b1, b2, b3, b4, b5, b6⟩ := deleteSelectedBlocks_post (deleteSelectedAnimations s)
  have hlay : (deleteSelectedBlocks (deleteSelectedAnimations s)).layers = s.layers := by
    rw [b5, a4]
  have hV1 : (deleteSelectedBlocks (deleteSelectedAnimations s)).layers.vectorLayers ≠ [] := by
    rw [hlay]; exact hV
  obtain ⟨l1, l2, l3⟩ :=
    deleteSelectedLayers_post (deleteSelectedBlocks (deleteSelectedAnimations s)) hV1
  rw [hlay] at l3
  have tl : (deleteSelectedLayers (deleteSelectedBlocks (deleteSelectedAnimations s))).timeline =
      (deleteSelectedBlocks (deleteSelectedAnimations s)).timeline :=
    deleteSelectedLayers_timeline _
  refine ⟨?_, l1, ?_, ?_, l2, ?_, l3⟩
  · rw [tl]; exact b1 a1
  · rw [tl, b2, a2]
  · rw [tl, b3]
  · intro hsel
    rw [tl, b4, b6]
    exact a5 hsel

theorem C8_delete_selected_models_witness :
    (reduce sampleStateAB .deleteSelectedModels).map
        (fun s2 => (s2.timeline.animations, s2.timeline.activeAnimationId,
                    s2.timeline.selectedAnimationIds)) =
      some ([sampleAnimB], "B", []) ∧
    (sampleStateAB.timeline.animations ≠ [] ∧ sampleStateAB.layers.vectorLayers ≠ []) ∧
    (∀ s2, reduce sampleStateAB .deleteSelectedModels = some s2 →
      s2.timeline.animations ≠ [] ∧ s2.layers.vectorLayers ≠ [] ∧
      s2.timeline.selectedAnimationIds = [] ∧ s2.timeline.selectedBlockIds = [] ∧
      s2.layers.selectedLayerIds = [] ∧
      (jsSetHas sampleStateAB.timeline.selectedAnimationIds
          sampleStateAB.timeline.activeAnimationId = true →
        s2.timeline.activeAnimationId = (s2.timeline.animations.headI).id) ∧
      (sampleStateAB.layers.selectedLayerIds ≠ [] →
        (s2.layers.vectorLayers.find?
            (fun vl => vl.id = sampleStateAB.layers.activeVectorLayerId)).isNone = true →
        s2.layers.activeVectorLayerId = (s2.layers.vectorLayers.headI).id)) :=
  ⟨rfl, ⟨by simp [sampleStateAB], by simp [sampleStateAB, sampleLayersState]⟩,
   fun s2 hr => C8_delete_selected_models sampleStateAB s2 hr
     (by simp [sampleStateAB]) (by simp [sampleStateAB, sampleLayersState])⟩


/-- C6: when the two endpoints have unequal subpath counts n and m after
normalization, the compatibilizer pads the endpoint with fewer subpaths with
collapsing subpaths, each placed at the pole of inaccessibility of the
corresponding subpath of the larger endpoint and given that subpath's command
count, so both endpoints end with subpath count max(n, m); the concrete
1-subpath/2-subpath example yields command counts [4,4] on each side with the
synthetic subpath at pole (5,7). -/
theorem C6_collapsing_subpath_padding :
    (∀ path opp0 : Path,
      ¬ path.subPaths.length = (opp0.deleteCollapsingSubPaths).subPaths.length →
      (reconcilePaths path (some opp0)).1.subPaths.length =
        max path.subPaths.length (opp0.deleteCollapsingSubPaths).subPaths.length ∧
      (∃ o2, (reconcilePaths path (some opp0)).2 = some o2 ∧
        o2.subPaths.length =
          max path.subPaths.length (opp0.deleteCollapsingSubPaths).subPaths.length) ∧
      ∀ j, min path.subPaths.length (opp0.deleteCollapsingSubPaths).subPaths.length ≤ j →
        j < max path.subPaths.length (opp0.deleteCollapsingSubPaths).subPaths.length →
        ((path.subPaths.length < (opp0.deleteCollapsingSubPaths).subPaths.length →
           (reconcilePaths path (some opp0)).1.shapeAt j =
             some (true, (opp0.deleteCollapsingSubPaths).getPoleOfInaccessibility j,
                   (opp0.deleteCollapsingSubPaths).numCmds j)) ∧
         ((opp0.deleteCollapsingSubPaths).subPaths.length < path.subPaths.length →
           ∃ o2, (reconcilePaths path (some opp0)).2 = some o2 ∧
             o2.shapeAt j = some (true, path.getPoleOfInaccessibility j,
               path.numCmds j)))) ∧
    reconcilePaths (normalizeEditedPath samplePathStart) (some samplePathEnd) =
      (⟨[sampleSubPathA, ⟨true, ⟨5, 7⟩, List.replicate 4 collapsingCmd⟩]⟩,
       some samplePathEnd) := by
  refine ⟨fun path opp0 h => ?_, rfl⟩
  have hr := reconcilePaths_eq path opp0
  obtain ⟨g1, g2, g3⟩ :=
    reconcileAfterNormalize_padding path opp0.deleteCollapsingSubPaths h
  rw [hr]
  exact ⟨g1, ⟨_, rfl, g2⟩, fun j hj1 hj2 =>
    ⟨fun hlt => (g3 j hj1 hj2).1 hlt,
     fun hgt => ⟨_, rfl, (g3 j hj1 hj2).2 hgt⟩⟩⟩

theorem C6_collapsing_subpath_padding_witness :
    (¬ samplePathStart.subPaths.length =
        (samplePathEnd.deleteCollapsingSubPaths).subPaths.length) ∧
    (reconcilePaths samplePathStart (some samplePathEnd)).1.subPaths.length =
      max samplePathStart.subPaths.length
        (samplePathEnd.deleteCollapsingSubPaths).subPaths.length ∧
    ((samplePathStart.subPaths.length <
        (samplePathEnd.deleteCollapsingSubPaths).subPaths.length →
      (reconcilePaths samplePathStart (some samplePathEnd)).1.shapeAt 1 =
        some (true, (samplePathEnd.deleteCollapsingSubPaths).getPoleOfInaccessibility 1,
              (samplePathEnd.deleteCollapsingSubPaths).numCmds 1)) ∧
     ((samplePathEnd.deleteCollapsingSubPaths).subPaths.length <
        samplePathStart.subPaths.length →
      ∃ o2, (reconcilePaths samplePathStart (some samplePathEnd)).2 = some o2 ∧
        o2.shapeAt 1 = some (true, samplePathStart.getPoleOfInaccessibility 1,
          samplePathStart.numCmds 1))) :=
  ⟨by decide,
   (C6_collapsing_subpath_padding.1 samplePathStart samplePathEnd (by decide)).1,
   (C6_collapsing_subpath_padding.1 samplePathStart samplePathEnd (by decide)).2.2 1
     (by decide) (by decide)⟩

/-- C7: the claim fails on the code.  The committed opposite endpoint of the
concrete block still carries a previously-applied command-type promotion
(`convertedCmd.orig = some 0`): normalization never unconverts the opposite
endpoint, so at an index whose command counts differ the promotion is
retained in the returned document, contradicting "reverts all
previously-applied command-type promotions on every subpath of both
endpoints ... never retained". -/
theorem C7_normalization_counterexample :
    committedPathData CanvasType.Start samplePathStart
        (some samplePathStart) (some samplePathOpp) =
      BlockData.pathBlock (some samplePathStart) (some samplePathOpp) ∧
    samplePathOpp.subPaths =
      [⟨false, ⟨3, 3⟩, [convertedCmd, plainCmd, plainCmd, plainCmd, plainCmd]⟩] ∧
    convertedCmd.orig = some 0 ∧
    samplePathOpp.unconvertSubPath 0 ≠ samplePathOpp :=
  ⟨rfl, rfl, rfl, by decide⟩

/-- C7 (amended): on every UpdatePathBlock the normalization step removes
previously-inserted collapsing subpaths from both endpoints and reverts
command-type promotions on every subpath of the edited endpoint only, before
any count equalization; the opposite endpoint's promotions are reverted later,
inside the per-index auto-conversion step, only at indices where the two
endpoints' command counts match — at an index whose counts differ the opposite
subpath is left untouched. -/
theorem C7_normalization_scope :
    (∀ path opp0 : Path, reconcilePaths path (some opp0) =
        ((reconcileAfterNormalize path opp0.deleteCollapsingSubPaths).1,
         some (reconcileAfterNormalize path opp0.deleteCollapsingSubPaths).2)) ∧
    (∀ path : Path, normalizeEditedPath path =
        Path.deleteCollapsingSubPaths ⟨path.subPaths.map SubPath.unconvert⟩) ∧
    (∀ p o : Path, ∀ j : Nat,
      ¬ (equalizeSubPathCounts p o).1.numCmds j = (equalizeSubPathCounts p o).2.numCmds j →
      (reconcileAfterNormalize p o).2.subPaths[j]? =
        (equalizeSubPathCounts p o).2.subPaths[j]? ∧
      (reconcileAfterNormalize p o).1.subPaths[j]? =
        (equalizeSubPathCounts p o).1.subPaths[j]?) := by
  refine ⟨reconcilePaths_eq, normalizeEditedPath_eq, fun p o j h => ?_⟩
  unfold reconcileAfterNormalize
  have hg := convertAll_getElem_of_ne (max p.subPaths.length o.subPaths.length)
    (equalizeSubPathCounts p o).1 (equalizeSubPathCounts p o).2 j h
  exact ⟨hg.2, hg.1⟩

theorem C7_normalization_scope_witness :
    (¬ (equalizeSubPathCounts samplePathStart samplePathOpp).1.numCmds 0 =
        (equalizeSubPathCounts samplePathStart samplePathOpp).2.numCmds 0) ∧
    ((reconcileAfterNormalize samplePathStart samplePathOpp).2.subPaths[0]? =
        (equalizeSubPathCounts samplePathStart samplePathOpp).2.subPaths[0]? ∧
     (reconcileAfterNormalize samplePathStart samplePathOpp).1.subPaths[0]? =
        (equalizeSubPathCounts samplePathStart samplePathOpp).1.subPaths[0]?) :=
  ⟨by decide, C7_normalization_scope.2.2 samplePathStart samplePathOpp 0 (by decide)⟩

/-- C10: every successful ADD_BLOCK placement has duration exactly 100 time
units, starts at or after 0, ends at or before the animation duration, and
overlaps no existing block of the same (layer, propertyName) pair (given the
pair's blocks are ordered, pairwise disjoint, and within the animation); the
reference cursor time is the constant 0 and the block duration the constant
100, as fixed by `addBlockPlacement`. -/
theorem C10_addblock_placement_sound (animation : Animation) (layerId propertyName : String)
    (s e : Int)
    (hc : blocksChainFrom 0 animation.duration
      (orderedBlocks animation layerId propertyName) = true)
    (h : addBlockPlacement animation layerId propertyName = some (s, e)) :
    addBlockPlacement animation layerId propertyName =
      findGap (orderedBlocks animation layerId propertyName) animation.duration 0 100 ∧
    e - s = 100 ∧ 0 ≤ s ∧ e ≤ animation.duration ∧
    ∀ b ∈ orderedBlocks animation layerId propertyName,
      e ≤ b.startTime ∨ b.endTime ≤ s :=
  ⟨rfl, findGap_sound (orderedBlocks animation layerId propertyName)
    animation.duration s e hc h⟩

theorem C10_addblock_placement_sound_witness :
    (blocksChainFrom 0 sampleAnimation1.duration
        (orderedBlocks sampleAnimation1 "L" "P") = true) ∧
    (addBlockPlacement sampleAnimation1 "L" "P" = some (300, 400)) ∧
    (addBlockPlacement sampleAnimation1 "L" "P" =
      findGap (orderedBlocks sampleAnimation1 "L" "P") sampleAnimation1.duration 0 100 ∧
    (400 : Int) - 300 = 100 ∧ (0 : Int) ≤ 300 ∧ (400 : Int) ≤ sampleAnimation1.duration ∧
    ∀ b ∈ orderedBlocks sampleAnimation1 "L" "P",
      (400 : Int) ≤ b.startTime ∨ b.endTime ≤ (300 : Int)) :=
  ⟨by decide, rfl, C10_addblock_placement_sound sampleAnimation1 "L" "P" 300 400 (by decide) rfl⟩

end ShapeShifter
